import Mathlib

/-!
# Occupancy grid of jps3d: `include/jps_collision/map_util.h`

A shallow embedding of the class template `JPS::MapUtil<Dim>` and proofs about it.

Modelling conventions.

* The template is instantiated in the source at `Dim = 2` (`OccMapUtil`) and at `Dim = 3`
  (`VoxelMapUtil`).  Each instantiation is embedded on its own, with the loops over
  `i < Dim` unrolled and the test `Dim == 2` resolved.
* `decimal_t`, `double` and the `float` fields of `pcl::PointXYZ` are exact rationals; the
  constants `0.5` and `0.8` are `1 / 2` and `4 / 5`.
* `int` is an unbounded integer (no overflow is modelled).
* `map_` is a list of integers; reading or writing `map_[i]` outside `0 ≤ i < map_.size()`
  has no defined result and is `none`.  Likewise an Eigen coefficient access `v(i)` with
  `i` outside the vector is `none`.
* `total_size_` is declared `double` in the source but only ever receives the `int`
  product computed by `initMap`; it is modelled by that integer.
* A loop nest over the cells is a nest of folds over `loopRange`; `rayTrace`, which reads no
  cell, is a total function, and its `break` ends the recursion of `rayLoop`.
-/

namespace JPS

/-! ## Shared data model -/

/-- The map data `Tmap = std::vector<signed char>`, a flat array of cell values. -/
abbrev Tmap := List Int

/-- Occupied cells hold `val_occ = 100`. -/
abbrev val_occ : Int := 100

/-- Free cells hold `val_free = 0`. -/
abbrev val_free : Int := 0

/-- Unknown cells hold `val_unknown = -1`. -/
abbrev val_unknown : Int := -1

/-- Centre of cylinders, `val_cyl_crt = 50`. -/
abbrev val_cyl_crt : Int := 50

/-- The function `std::round` on exact values: the nearest integer, halfway cases rounded
away from zero. -/
def stdRound (q : ℚ) : Int :=
  if 0 ≤ q then ⌊q + 1 / 2⌋ else ⌈q - 1 / 2⌉

/-- A point `pcl::PointXYZ` of the point-cloud library: three coordinates, whatever `Dim`. -/
structure PointXYZ where
  x : ℚ
  y : ℚ
  z : ℚ

/-- Reading `map_[idx]`: defined when `0 ≤ idx < map_.size()`. -/
def readCell (m : Tmap) (idx : Int) : Option Int :=
  if 0 ≤ idx then m[idx.toNat]? else none

/-- The assignment `map_[idx] = v`: defined when `0 ≤ idx < map_.size()`. -/
def writeCell (m : Tmap) (idx : Int) (v : Int) : Option Tmap :=
  if 0 ≤ idx ∧ idx < m.length then some (m.set idx.toNat v) else none

/-- The values taken by `i` in `for (int i = lo; i <= hi; i++)`, in order. -/
def loopRange (lo hi : Int) : List Int :=
  (List.range (hi + 1 - lo).toNat).map (fun (k : Nat) => lo + (k : Int))

/-- Modelled from the spec: the integer vector type `Veci<2>`, declared in
`jps_basis/data_type.h`, which is not among the sources: a cell coordinate of 2 integers. -/
abbrev Veci2 := Int × Int

/-- Modelled from the spec: the floating-point vector type `Vecf<2>`, declared in
`jps_basis/data_type.h`, which is not among the sources: a point of 2 coordinates. -/
abbrev Vecf2 := ℚ × ℚ

/-- Modelled from the spec: the integer vector type `Veci<3>`, declared in
`jps_basis/data_type.h`, which is not among the sources: a cell coordinate of 3 integers. -/
abbrev Veci3 := Int × Int × Int

/-- Modelled from the spec: the floating-point vector type `Vecf<3>`, declared in
`jps_basis/data_type.h`, which is not among the sources: a point of 3 coordinates. -/
abbrev Vecf3 := ℚ × ℚ × ℚ

/-- Coefficient access `v(i)` on a vector of size 2: only `v(0)` and `v(1)` exist, and the
vector library asserts `0 <= i < 2`. -/
def coeff2 {α : Type} (v : α × α) : Nat → Option α
  | 0 => some v.1
  | 1 => some v.2
  | _ => none

/-- The instantiation `OccMapUtil = MapUtil<2>`: the member variables of the class. -/
structure OccMapUtil where
  map_ : Tmap
  res_ : ℚ
  inflated_r_ : ℚ
  total_size_ : Int
  origin_d_ : Vecf2
  dim_ : Veci2

/-- The instantiation `VoxelMapUtil = MapUtil<3>`: the member variables of the class. -/
structure VoxelMapUtil where
  map_ : Tmap
  res_ : ℚ
  inflated_r_ : ℚ
  total_size_ : Int
  origin_d_ : Vecf3
  dim_ : Veci3

/-! ## Cylinder insertion on the members it reads

The body of `updateCylinders` reads `origin_d_(0)`, `origin_d_(1)`, `res_`, `inflated_r_`,
`dim_(0)` and `total_size_` only, whatever `Dim` is; it is embedded once, on these members. -/

/-- The innermost statement of `updateCylinders` (lines 81 to 86): the cell `id_infl` is set
to `val_occ` when `id_infl` lies in `[0, total_size_)` and differs from `val_cyl_crt`.
Here `dim0` is `dim_(0)` and `total` is `total_size_`. -/
def cylinderInflateCell (dim0 total : Int) (m : Tmap) (ix iy : Int) : Option Tmap :=
  let id_infl := ix + dim0 * iy
  if 0 ≤ id_infl ∧ id_infl < total ∧ id_infl ≠ val_cyl_crt then
    writeCell m id_infl val_occ
  else some m

/-- The two nested inflation loops of `updateCylinders` (lines 77 to 88). -/
def cylinderInflate (dim0 total : Int) (x y inf_step : Int) (m : Tmap) : Option Tmap :=
  (loopRange (x - inf_step) (x + inf_step)).foldlM
    (fun m ix =>
      (loopRange (y - inf_step) (y + inf_step)).foldlM
        (fun m iy => cylinderInflateCell dim0 total m ix iy) m)
    m

/-- One iteration of the outer loop of `updateCylinders` (lines 58 to 88), acting on the
cell array; `o0`, `o1`, `res`, `infl` are `origin_d_(0)`, `origin_d_(1)`, `res_` and
`inflated_r_`.  The first branch is the `continue` of line 66. -/
def cylinderStep (o0 o1 res infl : ℚ) (dim0 total : Int) (m : Tmap) (p : PointXYZ) :
    Option Tmap :=
  let x := max (stdRound ((p.x - o0) / res - 1 / 2)) 0
  let y := max (stdRound ((p.y - o1) / res - 1 / 2)) 0
  let width := p.z
  let id := x + dim0 * y
  if id = val_cyl_crt then some m
  else
    (if 0 ≤ id ∧ id < total then writeCell m id val_cyl_crt else some m).bind
      fun m1 =>
        let inf_step := ⌈(1 + infl) * width * (1 / 2) / res⌉
        cylinderInflate dim0 total x y inf_step m1

/-! ## `MapUtil<2>` -/

namespace OccMapUtil

/-- The method `initMap` at `Dim = 2`: every member is overwritten, `total_size_` is
`dim_(0) * dim_(1)` and the map is `total_size_` cells of `val_free` (no cell when the
product is negative, where `resize` has no defined result). -/
def initMap (dim : Veci2) (ori : Vecf2) (res inflated_ratio : ℚ) : OccMapUtil :=
  { map_ := List.replicate (dim.1 * dim.2).toNat val_free
    res_ := res
    inflated_r_ := inflated_ratio
    total_size_ := dim.1 * dim.2
    origin_d_ := ori
    dim_ := dim }

/-- The method `getIndex` at `Dim = 2`: `pn(0) + dim_(0) * pn(1)`. -/
def getIndex (g : OccMapUtil) (pn : Veci2) : Int :=
  pn.1 + g.dim_.1 * pn.2

/-- The method `isOutside` at `Dim = 2`: some `pn(i) < 0` or `pn(i) >= dim_(i)`. -/
def isOutside (g : OccMapUtil) (pn : Veci2) : Bool :=
  (decide (pn.1 < 0) || decide (pn.1 ≥ g.dim_.1)) ||
    (decide (pn.2 < 0) || decide (pn.2 ≥ g.dim_.2))

/-- The overload `isFree(int idx)`: `map_[idx] == val_free`. -/
def isFree_idx (g : OccMapUtil) (idx : Int) : Option Bool :=
  (readCell g.map_ idx).map (fun v => decide (v = val_free))

/-- The overload `isUnknown(int idx)`: `map_[idx] == val_unknown`. -/
def isUnknown_idx (g : OccMapUtil) (idx : Int) : Option Bool :=
  (readCell g.map_ idx).map (fun v => decide (v = val_unknown))

/-- The overload `isOccupied(int idx)`: `map_[idx] > val_free`. -/
def isOccupied_idx (g : OccMapUtil) (idx : Int) : Option Bool :=
  (readCell g.map_ idx).map (fun v => decide (v > val_free))

/-- The overload `isFree(const Veci<Dim>& pn)`. -/
def isFree (g : OccMapUtil) (pn : Veci2) : Option Bool :=
  if g.isOutside pn then some false else g.isFree_idx (g.getIndex pn)

/-- The overload `isOccupied(const Veci<Dim>& pn)`. -/
def isOccupied (g : OccMapUtil) (pn : Veci2) : Option Bool :=
  if g.isOutside pn then some false else g.isOccupied_idx (g.getIndex pn)

/-- The overload `isUnknown(const Veci<Dim>& pn)`, which reads `map_[getIndex(pn)]` itself. -/
def isUnknown (g : OccMapUtil) (pn : Veci2) : Option Bool :=
  if g.isOutside pn then some false
  else (readCell g.map_ (g.getIndex pn)).map (fun v => decide (v = val_unknown))

/-- The method `floatToInt` at `Dim = 2`: `round((pt(i) - origin_d_(i)) / res_ - 0.5)`. -/
def floatToInt (g : OccMapUtil) (pt : Vecf2) : Veci2 :=
  (stdRound ((pt.1 - g.origin_d_.1) / g.res_ - 1 / 2),
   stdRound ((pt.2 - g.origin_d_.2) / g.res_ - 1 / 2))

/-- The method `intToFloat` at `Dim = 2`: `(pn + 0.5) * res_ + origin_d_`. -/
def intToFloat (g : OccMapUtil) (pn : Veci2) : Vecf2 :=
  (((pn.1 : ℚ) + 1 / 2) * g.res_ + g.origin_d_.1,
   ((pn.2 : ℚ) + 1 / 2) * g.res_ + g.origin_d_.2)

/-- The method `updateCylinders` at `Dim = 2` (the source comment: only for 2-d map): the
cylinders are processed in order; only `map_` changes. -/
def updateCylinders (g : OccMapUtil) (cylinders : List PointXYZ) : Option OccMapUtil :=
  (cylinders.foldlM
      (cylinderStep g.origin_d_.1 g.origin_d_.2 g.res_ g.inflated_r_ g.dim_.1 g.total_size_)
      g.map_).map
    (fun m => { g with map_ := m })

/-- One iteration of the loop of `readMap` at `Dim = 2`.  The body is the one of the
template: it reads `origin_d_(2)`, a coefficient a 2-vector does not have. -/
def readMapStep (g : OccMapUtil) (m : Tmap) (p : PointXYZ) : Option Tmap := do
  let x := stdRound ((p.x - (← coeff2 g.origin_d_ 0)) / g.res_ - 1 / 2)
  let y := stdRound ((p.y - (← coeff2 g.origin_d_ 1)) / g.res_ - 1 / 2)
  let z := stdRound ((p.z - (← coeff2 g.origin_d_ 2)) / g.res_ - 1 / 2)
  let x := if x > 0 then x else 0
  let y := if y > 0 then y else 0
  let z := if z > 0 then z else 0
  let d0 ← coeff2 g.dim_ 0
  let d1 ← coeff2 g.dim_ 1
  let id := x + d0 * y + d0 * d1 * z
  let m1 ← if 0 ≤ id ∧ id < g.total_size_ then writeCell m id val_occ else some m
  let r := ⌈g.inflated_r_ / g.res_⌉
  (loopRange (x - r) (x + r)).foldlM
    (fun m ix =>
      (loopRange (y - r) (y + r)).foldlM
        (fun m iy =>
          (loopRange (z - r) (z + r)).foldlM
            (fun m iz =>
              let id_infl := ix + d0 * iy + d0 * d1 * iz
              if 0 ≤ id_infl ∧ id_infl < g.total_size_ then writeCell m id_infl val_occ
              else some m)
            m)
        m)
    m1

/-- The method `readMap` at `Dim = 2`. -/
def readMap (g : OccMapUtil) (pcl : List PointXYZ) : Option OccMapUtil :=
  (pcl.foldlM g.readMapStep g.map_).map (fun m => { g with map_ := m })

end OccMapUtil

/-! ## `MapUtil<3>` -/

namespace VoxelMapUtil

/-- The method `initMap` at `Dim = 3`: every member is overwritten, `total_size_` is
`dim_(0) * dim_(1) * dim_(2)` and the map is `total_size_` cells of `val_free` (no cell
when the product is negative, where `resize` has no defined result). -/
def initMap (dim : Veci3) (ori : Vecf3) (res inflated_ratio : ℚ) : VoxelMapUtil :=
  { map_ := List.replicate (dim.1 * dim.2.1 * dim.2.2).toNat val_free
    res_ := res
    inflated_r_ := inflated_ratio
    total_size_ := dim.1 * dim.2.1 * dim.2.2
    origin_d_ := ori
    dim_ := dim }

/-- The method `getIndex` at `Dim = 3`:
`pn(0) + dim_(0) * pn(1) + dim_(0) * dim_(1) * pn(2)`. -/
def getIndex (g : VoxelMapUtil) (pn : Veci3) : Int :=
  pn.1 + g.dim_.1 * pn.2.1 + g.dim_.1 * g.dim_.2.1 * pn.2.2

/-- The method `isOutside` at `Dim = 3`: some `pn(i) < 0` or `pn(i) >= dim_(i)`. -/
def isOutside (g : VoxelMapUtil) (pn : Veci3) : Bool :=
  (decide (pn.1 < 0) || decide (pn.1 ≥ g.dim_.1)) ||
    ((decide (pn.2.1 < 0) || decide (pn.2.1 ≥ g.dim_.2.1)) ||
      (decide (pn.2.2 < 0) || decide (pn.2.2 ≥ g.dim_.2.2)))

/-- The overload `isFree(int idx)`: `map_[idx] == val_free`. -/
def isFree_idx (g : VoxelMapUtil) (idx : Int) : Option Bool :=
  (readCell g.map_ idx).map (fun v => decide (v = val_free))

/-- The overload `isUnknown(int idx)`: `map_[idx] == val_unknown`. -/
def isUnknown_idx (g : VoxelMapUtil) (idx : Int) : Option Bool :=
  (readCell g.map_ idx).map (fun v => decide (v = val_unknown))

/-- The overload `isOccupied(int idx)`: `map_[idx] > val_free`. -/
def isOccupied_idx (g : VoxelMapUtil) (idx : Int) : Option Bool :=
  (readCell g.map_ idx).map (fun v => decide (v > val_free))

/-- The overload `isFree(const Veci<Dim>& pn)`. -/
def isFree (g : VoxelMapUtil) (pn : Veci3) : Option Bool :=
  if g.isOutside pn then some false else g.isFree_idx (g.getIndex pn)

/-- The overload `isOccupied(const Veci<Dim>& pn)`. -/
def isOccupied (g : VoxelMapUtil) (pn : Veci3) : Option Bool :=
  if g.isOutside pn then some false else g.isOccupied_idx (g.getIndex pn)

/-- The overload `isUnknown(const Veci<Dim>& pn)`, which reads `map_[getIndex(pn)]` itself. -/
def isUnknown (g : VoxelMapUtil) (pn : Veci3) : Option Bool :=
  if g.isOutside pn then some false
  else (readCell g.map_ (g.getIndex pn)).map (fun v => decide (v = val_unknown))

/-- The method `floatToInt` at `Dim = 3`: `round((pt(i) - origin_d_(i)) / res_ - 0.5)`. -/
def floatToInt (g : VoxelMapUtil) (pt : Vecf3) : Veci3 :=
  (stdRound ((pt.1 - g.origin_d_.1) / g.res_ - 1 / 2),
   stdRound ((pt.2.1 - g.origin_d_.2.1) / g.res_ - 1 / 2),
   stdRound ((pt.2.2 - g.origin_d_.2.2) / g.res_ - 1 / 2))

/-- The method `intToFloat` at `Dim = 3`: `(pn + 0.5) * res_ + origin_d_`. -/
def intToFloat (g : VoxelMapUtil) (pn : Veci3) : Vecf3 :=
  (((pn.1 : ℚ) + 1 / 2) * g.res_ + g.origin_d_.1,
   ((pn.2.1 : ℚ) + 1 / 2) * g.res_ + g.origin_d_.2.1,
   ((pn.2.2 : ℚ) + 1 / 2) * g.res_ + g.origin_d_.2.2)

/-- The innermost statement of `readMap` (lines 130 to 134): the cell `id_infl` is set to
`val_occ` when `id_infl` lies in `[0, total_size_)`. -/
def inflateCell (g : VoxelMapUtil) (m : Tmap) (ix iy iz : Int) : Option Tmap :=
  let id_infl := ix + g.dim_.1 * iy + g.dim_.1 * g.dim_.2.1 * iz
  if 0 ≤ id_infl ∧ id_infl < g.total_size_ then writeCell m id_infl val_occ else some m

/-- The three nested inflation loops of `readMap` (lines 124 to 137); `r` is the local `m`
of the source, the amount of cells to inflate in each direction. -/
def inflate (g : VoxelMapUtil) (x y z r : Int) (m : Tmap) : Option Tmap :=
  (loopRange (x - r) (x + r)).foldlM
    (fun m ix =>
      (loopRange (y - r) (y + r)).foldlM
        (fun m iy =>
          (loopRange (z - r) (z + r)).foldlM (fun m iz => g.inflateCell m ix iy iz) m)
        m)
    m

/-- The cell coordinates `readMap` computes for a point (lines 106 to 113): the rounded
cell of the point with every non-positive index replaced by 0. -/
def seedCell (g : VoxelMapUtil) (p : PointXYZ) : Veci3 :=
  let x := stdRound ((p.x - g.origin_d_.1) / g.res_ - 1 / 2)
  let y := stdRound ((p.y - g.origin_d_.2.1) / g.res_ - 1 / 2)
  let z := stdRound ((p.z - g.origin_d_.2.2) / g.res_ - 1 / 2)
  (if x > 0 then x else 0, if y > 0 then y else 0, if z > 0 then z else 0)

/-- One iteration of the loop of `readMap` (lines 106 to 137), acting on the cell array. -/
def readMapStep (g : VoxelMapUtil) (m : Tmap) (p : PointXYZ) : Option Tmap :=
  let s := g.seedCell p
  let id := s.1 + g.dim_.1 * s.2.1 + g.dim_.1 * g.dim_.2.1 * s.2.2
  (if 0 ≤ id ∧ id < g.total_size_ then writeCell m id val_occ else some m).bind
    fun m1 =>
      let r := ⌈g.inflated_r_ / g.res_⌉
      g.inflate s.1 s.2.1 s.2.2 r m1

/-- The method `readMap`: the points are processed in order; only `map_` changes. -/
def readMap (g : VoxelMapUtil) (pcl : List PointXYZ) : Option VoxelMapUtil :=
  (pcl.foldlM g.readMapStep g.map_).map (fun m => { g with map_ := m })

/-- The method `updateCylinders` at `Dim = 3`: the same body, reading the first two
coefficients of `origin_d_` and `dim_(0)`. -/
def updateCylinders (g : VoxelMapUtil) (cylinders : List PointXYZ) : Option VoxelMapUtil :=
  (cylinders.foldlM
      (cylinderStep g.origin_d_.1 g.origin_d_.2.1 g.res_ g.inflated_r_ g.dim_.1 g.total_size_)
      g.map_).map
    (fun m => { g with map_ := m })

end VoxelMapUtil

/-! ## Ray tracing, cloud extraction and morphological operations: shared parts -/

/-- Conversion of a `double` to `int`: truncation toward zero. -/
def truncToInt (q : ℚ) : Int :=
  if 0 ≤ q then ⌊q⌋ else ⌈q⌉

/-- The loop of `rayTrace` (lines 240 to 248) over the values of `n` still to come:
`cell n` is `floatToInt(pt1 + step * n)`, `outside` is `isOutside`; the first argument
after the list is `prev_pn`, the second is `pns`.  The first branch is the `break`. -/
def rayLoop {V : Type} [DecidableEq V] (cell : Int → V) (outside : V → Bool) :
    List Int → V → List V → List V
  | [], _, pns => pns
  | n :: ns, prev_pn, pns =>
    if outside (cell n) then pns
    else
      rayLoop cell outside ns (cell n) (if cell n ≠ prev_pn then pns ++ [cell n] else pns)

/-- The loop of `isBlocked` (lines 255 to 259): true at the first cell of `pns` whose value
`map_[getIndex(pn)]` is at least `val`, false when there is none. -/
def blockedLoop {V : Type} (m : Tmap) (getIndex : V → Int) (val : Int) :
    List V → Option Bool
  | [] => some false
  | pn :: pns =>
    (readCell m (getIndex pn)).bind fun v =>
      if v ≥ val then some true else blockedLoop m getIndex val pns

/-- The statement `if (test(getIndex(n))) cloud.push_back(intToFloat(n))` of the cloud
extractions: `b` is the result of the test on the cell, `pt` the centre of the cell. -/
def pushIf {P : Type} (cloud : List P) (b : Option Bool) (pt : P) : Option (List P) :=
  b.bind fun t => if t then some (cloud ++ [pt]) else some cloud

/-! ## `MapUtil<2>`: the remaining methods -/

/-- The method `setMap` at `Dim = 2`: `map_`, `dim_`, `origin_d_` and `res_` are assigned;
`total_size_` and `inflated_r_` are not. -/
def OccMapUtil.setMap (g : OccMapUtil) (ori : Vecf2) (dim : Veci2) (map : Tmap) (res : ℚ) :
    OccMapUtil :=
  { g with map_ := map, dim_ := dim, origin_d_ := ori, res_ := res }

/-- The step count `max_diff` of `rayTrace` at `Dim = 2`: the infinity norm of
`diff / res_` divided by `k = 0.8`, converted to `int`. -/
def OccMapUtil.maxDiff (g : OccMapUtil) (pt1 pt2 : Vecf2) : Int :=
  truncToInt (max |(pt2.1 - pt1.1) / g.res_| |(pt2.2 - pt1.2) / g.res_| / (4 / 5))

/-- The sample `floatToInt(pt1 + step * n)` of `rayTrace` at `Dim = 2`, where
`step = diff * s` and `s = 1.0 / max_diff`. -/
def OccMapUtil.rayCell (g : OccMapUtil) (pt1 pt2 : Vecf2) (n : Int) : Veci2 :=
  let s : ℚ := 1 / (g.maxDiff pt1 pt2 : ℚ)
  let step : Vecf2 := ((pt2.1 - pt1.1) * s, (pt2.2 - pt1.2) * s)
  g.floatToInt (pt1.1 + step.1 * (n : ℚ), pt1.2 + step.2 * (n : ℚ))

/-- The method `rayTrace` at `Dim = 2`: `n` runs from 1 to `max_diff - 1`, `prev_pn` starts
at `Constant(-1)` and `pns` empty.  When `max_diff` is 0 the source computes an infinite
`s`, which no iteration uses. -/
def OccMapUtil.rayTrace (g : OccMapUtil) (pt1 pt2 : Vecf2) : List Veci2 :=
  rayLoop (g.rayCell pt1 pt2) g.isOutside (loopRange 1 (g.maxDiff pt1 pt2 - 1)) (-1, -1) []

/-- The method `isBlocked` at `Dim = 2`; `val` is the threshold (100 by default). -/
def OccMapUtil.isBlocked (g : OccMapUtil) (p1 p2 : Vecf2) (val : Int) : Option Bool :=
  blockedLoop g.map_ g.getIndex val (g.rayTrace p1 p2)

/-- The loop nest shared by `getCloud`, `getFreeCloud` and `getUnknownCloud` at `Dim = 2`:
`n(0)` runs in the outer loop and `n(1)` in the inner one; `test` is the index overload
applied to `getIndex(n)`. -/
def OccMapUtil.scanCloud (g : OccMapUtil) (test : Int → Option Bool) : Option (List Vecf2) :=
  (loopRange 0 (g.dim_.1 - 1)).foldlM
    (fun cloud n0 =>
      (loopRange 0 (g.dim_.2 - 1)).foldlM
        (fun cloud n1 => pushIf cloud (test (g.getIndex (n0, n1))) (g.intToFloat (n0, n1)))
        cloud)
    []

/-- The method `getCloud` at `Dim = 2`: the centres of the occupied cells. -/
def OccMapUtil.getCloud (g : OccMapUtil) : Option (List Vecf2) :=
  g.scanCloud g.isOccupied_idx

/-- The method `getFreeCloud` at `Dim = 2`: the centres of the free cells. -/
def OccMapUtil.getFreeCloud (g : OccMapUtil) : Option (List Vecf2) :=
  g.scanCloud g.isFree_idx

/-- The method `getUnknownCloud` at `Dim = 2`: the centres of the unknown cells. -/
def OccMapUtil.getUnknownCloud (g : OccMapUtil) : Option (List Vecf2) :=
  g.scanCloud g.isUnknown_idx

/-- The innermost statement of `dilate` (lines 399 to 400): the copy `map` is set to
`val_occ` at `n + it` when that cell is not outside. -/
def OccMapUtil.dilateWrite (g : OccMapUtil) (n : Veci2) (map : Tmap) (it : Veci2) :
    Option Tmap :=
  if g.isOutside (n + it) = false then writeCell map (g.getIndex (n + it)) val_occ
  else some map

/-- The body of the loops of `dilate` at the cell `n` (lines 397 to 402): the test
`isOccupied(getIndex(n))` reads the member `map_`, the writes go to the copy `map`. -/
def OccMapUtil.dilateCell (g : OccMapUtil) (dilate_neighbor : List Veci2) (map : Tmap)
    (n : Veci2) : Option Tmap :=
  (g.isOccupied_idx (g.getIndex n)).bind fun occ =>
    if occ then dilate_neighbor.foldlM (g.dilateWrite n) map else some map

/-- The method `dilate` at `Dim = 2`: `map` starts as a copy of `map_`, the loops run with
`n(0)` outside and `n(1)` inside, and `map_ = map` at the end. -/
def OccMapUtil.dilate (g : OccMapUtil) (dilate_neighbor : List Veci2) : Option OccMapUtil :=
  ((loopRange 0 (g.dim_.1 - 1)).foldlM
      (fun map n0 =>
        (loopRange 0 (g.dim_.2 - 1)).foldlM
          (fun map n1 => g.dilateCell dilate_neighbor map (n0, n1)) map)
      g.map_).map
    (fun map => { g with map_ := map })

/-- The body of the loops of `freeUnknown` at the cell `n` (lines 426 to 427), on the
current cell array `m`: `if (isUnknown(getIndex(n))) map_[getIndex(n)] = val_free`. -/
def OccMapUtil.freeUnknownCell (g : OccMapUtil) (m : Tmap) (n : Veci2) : Option Tmap :=
  (OccMapUtil.isUnknown_idx { g with map_ := m } (g.getIndex n)).bind fun u =>
    if u then writeCell m (g.getIndex n) val_free else some m

/-- The method `freeUnknown` at `Dim = 2`. -/
def OccMapUtil.freeUnknown (g : OccMapUtil) : Option OccMapUtil :=
  ((loopRange 0 (g.dim_.1 - 1)).foldlM
      (fun m n0 =>
        (loopRange 0 (g.dim_.2 - 1)).foldlM (fun m n1 => g.freeUnknownCell m (n0, n1)) m)
      g.map_).map
    (fun m => { g with map_ := m })

/-! ## `MapUtil<3>`: the remaining methods -/

/-- The method `setMap` at `Dim = 3`: `map_`, `dim_`, `origin_d_` and `res_` are assigned;
`total_size_` and `inflated_r_` are not. -/
def VoxelMapUtil.setMap (g : VoxelMapUtil) (ori : Vecf3) (dim : Veci3) (map : Tmap) (res : ℚ) :
    VoxelMapUtil :=
  { g with map_ := map, dim_ := dim, origin_d_ := ori, res_ := res }

/-- The step count `max_diff` of `rayTrace` at `Dim = 3`: the infinity norm of
`diff / res_` divided by `k = 0.8`, converted to `int`. -/
def VoxelMapUtil.maxDiff (g : VoxelMapUtil) (pt1 pt2 : Vecf3) : Int :=
  truncToInt
    (max |(pt2.1 - pt1.1) / g.res_|
        (max |(pt2.2.1 - pt1.2.1) / g.res_| |(pt2.2.2 - pt1.2.2) / g.res_|) / (4 / 5))

/-- The sample `floatToInt(pt1 + step * n)` of `rayTrace` at `Dim = 3`, where
`step = diff * s` and `s = 1.0 / max_diff`. -/
def VoxelMapUtil.rayCell (g : VoxelMapUtil) (pt1 pt2 : Vecf3) (n : Int) : Veci3 :=
  let s : ℚ := 1 / (g.maxDiff pt1 pt2 : ℚ)
  let step : Vecf3 :=
    ((pt2.1 - pt1.1) * s, (pt2.2.1 - pt1.2.1) * s, (pt2.2.2 - pt1.2.2) * s)
  g.floatToInt
    (pt1.1 + step.1 * (n : ℚ), pt1.2.1 + step.2.1 * (n : ℚ), pt1.2.2 + step.2.2 * (n : ℚ))

/-- The method `rayTrace` at `Dim = 3`: `n` runs from 1 to `max_diff - 1`, `prev_pn` starts
at `Constant(-1)` and `pns` empty. -/
def VoxelMapUtil.rayTrace (g : VoxelMapUtil) (pt1 pt2 : Vecf3) : List Veci3 :=
  rayLoop (g.rayCell pt1 pt2) g.isOutside (loopRange 1 (g.maxDiff pt1 pt2 - 1)) (-1, -1, -1) []

/-- The method `isBlocked` at `Dim = 3`; `val` is the threshold (100 by default). -/
def VoxelMapUtil.isBlocked (g : VoxelMapUtil) (p1 p2 : Vecf3) (val : Int) : Option Bool :=
  blockedLoop g.map_ g.getIndex val (g.rayTrace p1 p2)

/-- The loop nest shared by `getCloud`, `getFreeCloud` and `getUnknownCloud` at `Dim = 3`:
`n(0)` runs in the outer loop, `n(1)` in the middle one and `n(2)` in the inner one. -/
def VoxelMapUtil.scanCloud (g : VoxelMapUtil) (test : Int → Option Bool) :
    Option (List Vecf3) :=
  (loopRange 0 (g.dim_.1 - 1)).foldlM
    (fun cloud n0 =>
      (loopRange 0 (g.dim_.2.1 - 1)).foldlM
        (fun cloud n1 =>
          (loopRange 0 (g.dim_.2.2 - 1)).foldlM
            (fun cloud n2 =>
              pushIf cloud (test (g.getIndex (n0, n1, n2))) (g.intToFloat (n0, n1, n2)))
            cloud)
        cloud)
    []

/-- The method `getCloud` at `Dim = 3`: the centres of the occupied cells. -/
def VoxelMapUtil.getCloud (g : VoxelMapUtil) : Option (List Vecf3) :=
  g.scanCloud g.isOccupied_idx

/-- The method `getFreeCloud` at `Dim = 3`: the centres of the free cells. -/
def VoxelMapUtil.getFreeCloud (g : VoxelMapUtil) : Option (List Vecf3) :=
  g.scanCloud g.isFree_idx

/-- The method `getUnknownCloud` at `Dim = 3`: the centres of the unknown cells. -/
def VoxelMapUtil.getUnknownCloud (g : VoxelMapUtil) : Option (List Vecf3) :=
  g.scanCloud g.isUnknown_idx

/-- The innermost statement of `dilate` (lines 386 to 387): the copy `map` is set to
`val_occ` at `n + it` when that cell is not outside. -/
def VoxelMapUtil.dilateWrite (g : VoxelMapUtil) (n : Veci3) (map : Tmap) (it : Veci3) :
    Option Tmap :=
  if g.isOutside (n + it) = false then writeCell map (g.getIndex (n + it)) val_occ
  else some map

/-- The body of the loops of `dilate` at the cell `n` (lines 384 to 389): the test
`isOccupied(getIndex(n))` reads the member `map_`, the writes go to the copy `map`. -/
def VoxelMapUtil.dilateCell (g : VoxelMapUtil) (dilate_neighbor : List Veci3) (map : Tmap)
    (n : Veci3) : Option Tmap :=
  (g.isOccupied_idx (g.getIndex n)).bind fun occ =>
    if occ then dilate_neighbor.foldlM (g.dilateWrite n) map else some map

/-- The method `dilate` at `Dim = 3`: `map` starts as a copy of `map_`, the loops run with
`n(0)` outside, then `n(1)`, then `n(2)`, and `map_ = map` at the end. -/
def VoxelMapUtil.dilate (g : VoxelMapUtil) (dilate_neighbor : List Veci3) :
    Option VoxelMapUtil :=
  ((loopRange 0 (g.dim_.1 - 1)).foldlM
      (fun map n0 =>
        (loopRange 0 (g.dim_.2.1 - 1)).foldlM
          (fun map n1 =>
            (loopRange 0 (g.dim_.2.2 - 1)).foldlM
              (fun map n2 => g.dilateCell dilate_neighbor map (n0, n1, n2)) map)
          map)
      g.map_).map
    (fun map => { g with map_ := map })

/-- The body of the loops of `freeUnknown` at the cell `n` (lines 417 to 418), on the
current cell array `m`: `if (isUnknown(getIndex(n))) map_[getIndex(n)] = val_free`. -/
def VoxelMapUtil.freeUnknownCell (g : VoxelMapUtil) (m : Tmap) (n : Veci3) : Option Tmap :=
  (VoxelMapUtil.isUnknown_idx { g with map_ := m } (g.getIndex n)).bind fun u =>
    if u then writeCell m (g.getIndex n) val_free else some m

/-- The method `freeUnknown` at `Dim = 3`. -/
def VoxelMapUtil.freeUnknown (g : VoxelMapUtil) : Option VoxelMapUtil :=
  ((loopRange 0 (g.dim_.1 - 1)).foldlM
      (fun m n0 =>
        (loopRange 0 (g.dim_.2.1 - 1)).foldlM
          (fun m n1 =>
            (loopRange 0 (g.dim_.2.2 - 1)).foldlM
              (fun m n2 => g.freeUnknownCell m (n0, n1, n2)) m)
          m)
      g.map_).map
    (fun m => { g with map_ := m })

/-! ## Scan orders -/

/-- The cells of a 2-D grid in the order of the loop nests of the source: `n(0)` in the
outer loop, `n(1)` in the inner one. -/
def OccMapUtil.cells (g : OccMapUtil) : List Veci2 :=
  (loopRange 0 (g.dim_.1 - 1)).flatMap fun n0 =>
    (loopRange 0 (g.dim_.2 - 1)).map fun n1 => (n0, n1)

/-- The cells of a 3-D grid in the order of the loop nests of the source: `n(0)` in the
outer loop, then `n(1)`, then `n(2)`. -/
def VoxelMapUtil.cells (g : VoxelMapUtil) : List Veci3 :=
  (loopRange 0 (g.dim_.1 - 1)).flatMap fun n0 =>
    (loopRange 0 (g.dim_.2.1 - 1)).flatMap fun n1 =>
      (loopRange 0 (g.dim_.2.2 - 1)).map fun n2 => (n0, n1, n2)

/-- The cells of a 2-D grid in ascending order of the linear index, the first axis varying
fastest: the scan order the specification states for the cloud extractions. -/
def OccMapUtil.cellsByIndex (g : OccMapUtil) : List Veci2 :=
  (loopRange 0 (g.dim_.1 * g.dim_.2 - 1)).map fun i => (i % g.dim_.1, i / g.dim_.1)

/-! ## Specification predicates -/

/-- Every cell of `m'` holds what it holds in `m`, or `val_occ`, or `val_cyl_crt`:
the relation between the cell array before and after an insertion. -/
def RaisedFrom (m m' : Tmap) : Prop :=
  ∀ i : Int, readCell m' i = readCell m i ∨ readCell m' i = some val_occ ∨
    readCell m' i = some val_cyl_crt

/-- The cell array `s'` has the length of `s`, holds `val_occ` at every index satisfying
`W` and holds what `s` holds at every other index: the effect of writing `val_occ` at
the indices of `W`. -/
def WritesOcc (W : Int → Prop) (s s' : Tmap) : Prop :=
  s'.length = s.length ∧
    ∀ j : Int, (W j → readCell s' j = some val_occ) ∧ (¬ W j → readCell s' j = readCell s j)


end JPS

/-! ## Arithmetic of rounding and of the linear index -/

namespace JPS

theorem stdRound_intCast (c : Int) : stdRound (c : ℚ) = c := by
  unfold stdRound
  split
  · rw [Int.floor_eq_iff]; constructor <;> norm_num
  · rw [Int.ceil_eq_iff]; constructor <;> norm_num

theorem roundTrip_coord (c : Int) (res o : ℚ) (h : 0 < res) :
    stdRound ((((c : ℚ) + 1 / 2) * res + o - o) / res - 1 / 2) = c := by
  have h0 : res ≠ 0 := ne_of_gt h
  have : (((c : ℚ) + 1 / 2) * res + o - o) / res - 1 / 2 = (c : ℚ) := by
    field_simp
    ring
  rw [this, stdRound_intCast]

theorem index2_inj (d x y x' y' : Int) (hx : 0 ≤ x) (hxd : x < d) (hx' : 0 ≤ x') (hxd' : x' < d)
    (h : x + d * y = x' + d * y') : x = x' ∧ y = y' := by
  have e1 : (x + d * y) % d = x := by
    rw [Int.add_mul_emod_self_left]; exact Int.emod_eq_of_lt hx hxd
  have e2 : (x' + d * y') % d = x' := by
    rw [Int.add_mul_emod_self_left]; exact Int.emod_eq_of_lt hx' hxd'
  have hxx : x = x' := by rw [← e1, ← e2, h]
  refine ⟨hxx, ?_⟩
  subst hxx
  have hd : d ≠ 0 := by omega
  have : d * y = d * y' := by omega
  exact Int.eq_of_mul_eq_mul_left hd this

theorem index2_range (d e x y : Int) (hx : 0 ≤ x) (hxd : x < d) (hy : 0 ≤ y) (hye : y < e) :
    0 ≤ x + d * y ∧ x + d * y < d * e := by
  constructor
  · nlinarith
  · nlinarith

theorem index2_split (d e i : Int) (hd : 0 < d) (hi : 0 ≤ i) (hie : i < d * e) :
    0 ≤ i % d ∧ i % d < d ∧ 0 ≤ i / d ∧ i / d < e ∧ i % d + d * (i / d) = i := by
  refine ⟨Int.emod_nonneg _ (ne_of_gt hd), Int.emod_lt_of_pos _ hd,
    Int.ediv_nonneg hi (le_of_lt hd), ?_, Int.emod_add_ediv i d⟩
  apply Int.ediv_lt_of_lt_mul hd
  rw [mul_comm]; exact hie

theorem index3_range (d e f x y z : Int) (hx : 0 ≤ x) (hxd : x < d) (hy : 0 ≤ y) (hye : y < e)
    (hz : 0 ≤ z) (hzf : z < f) :
    0 ≤ x + d * y + d * e * z ∧ x + d * y + d * e * z < d * e * f := by
  obtain ⟨a1, a2⟩ := index2_range e f y z hy hye hz hzf
  obtain ⟨b1, b2⟩ := index2_range d (e * f) x (y + e * z) hx hxd a1 a2
  constructor
  · linarith
  · linarith

theorem isOutside2_false (g : OccMapUtil) (c : Veci2) :
    g.isOutside c = false ↔ (0 ≤ c.1 ∧ c.1 < g.dim_.1) ∧ (0 ≤ c.2 ∧ c.2 < g.dim_.2) := by
  simp [OccMapUtil.isOutside]

theorem isOutside3_false (g : VoxelMapUtil) (c : Veci3) :
    g.isOutside c = false ↔
      (0 ≤ c.1 ∧ c.1 < g.dim_.1) ∧ (0 ≤ c.2.1 ∧ c.2.1 < g.dim_.2.1) ∧
        (0 ≤ c.2.2 ∧ c.2.2 < g.dim_.2.2) := by
  simp [VoxelMapUtil.isOutside]

theorem readCell_mem (m : Tmap) (i v : Int) (h : readCell m i = some v) : v ∈ m := by
  unfold readCell at h
  split at h
  · exact List.getElem?_mem h
  · cases h

end JPS

/-! ## Coordinate transform, linear index and queries -/

namespace JPS

/-- C1, round trip: for a grid (2-D or 3-D) with resolution greater than 0 and every cell
coordinate `c`, in bounds or not, `floatToInt (intToFloat c) = c`. -/
theorem floatToInt_intToFloat (g2 : OccMapUtil) (c2 : Veci2) (g3 : VoxelMapUtil) (c3 : Veci3)
    (h2 : 0 < g2.res_) (h3 : 0 < g3.res_) :
    g2.floatToInt (g2.intToFloat c2) = c2 ∧ g3.floatToInt (g3.intToFloat c3) = c3 := by
  constructor
  · simp only [OccMapUtil.floatToInt, OccMapUtil.intToFloat, roundTrip_coord _ _ _ h2]
  · simp only [VoxelMapUtil.floatToInt, VoxelMapUtil.intToFloat, roundTrip_coord _ _ _ h3]

/-- Witness of C1 on the 10 by 10 grid and the 10 by 10 by 10 grid of resolution 1/2. -/
theorem floatToInt_intToFloat_witness :
    (OccMapUtil.initMap (10, 10) (0, 0) (1 / 2) 0).floatToInt
        ((OccMapUtil.initMap (10, 10) (0, 0) (1 / 2) 0).intToFloat (3, 7)) = (3, 7) ∧
      (VoxelMapUtil.initMap (10, 10, 10) (1, 2, 3) (1 / 2) 0).floatToInt
        ((VoxelMapUtil.initMap (10, 10, 10) (1, 2, 3) (1 / 2) 0).intToFloat (3, 7, 9)) =
          (3, 7, 9) :=
  floatToInt_intToFloat _ (3, 7) _ (3, 7, 9) (by norm_num [OccMapUtil.initMap])
    (by norm_num [VoxelMapUtil.initMap])

/-- C2, index bijection: on a grid whose dimensions are all positive, `getIndex` is injective
on the coordinates with `isOutside` false, and the integers it takes there are exactly
those of `[0, totalCells)`, the product of the dimensions (2-D and 3-D). -/
theorem getIndex_bijective (g2 : OccMapUtil) (g3 : VoxelMapUtil)
    (h2 : 0 < g2.dim_.1 ∧ 0 < g2.dim_.2)
    (h3 : 0 < g3.dim_.1 ∧ 0 < g3.dim_.2.1 ∧ 0 < g3.dim_.2.2) :
    ((∀ a b : Veci2, g2.isOutside a = false → g2.isOutside b = false →
        g2.getIndex a = g2.getIndex b → a = b) ∧
      (∀ i : Int, (0 ≤ i ∧ i < g2.dim_.1 * g2.dim_.2) ↔
        ∃ c : Veci2, g2.isOutside c = false ∧ g2.getIndex c = i)) ∧
    ((∀ a b : Veci3, g3.isOutside a = false → g3.isOutside b = false →
        g3.getIndex a = g3.getIndex b → a = b) ∧
      (∀ i : Int, (0 ≤ i ∧ i < g3.dim_.1 * g3.dim_.2.1 * g3.dim_.2.2) ↔
        ∃ c : Veci3, g3.isOutside c = false ∧ g3.getIndex c = i)) := by
  refine ⟨⟨?_, ?_⟩, ⟨?_, ?_⟩⟩
  · rintro ⟨x, y⟩ ⟨x', y'⟩ ha hb h
    rw [isOutside2_false] at ha hb
    simp only [OccMapUtil.getIndex] at h
    obtain ⟨e1, e2⟩ := index2_inj _ _ _ _ _ ha.1.1 ha.1.2 hb.1.1 hb.1.2 h
    simp only at e1 e2
    rw [e1, e2]
  · intro i
    constructor
    · rintro ⟨hi, hlt⟩
      obtain ⟨a1, a2, a3, a4, a5⟩ := index2_split _ _ i h2.1 hi hlt
      exact ⟨(i % g2.dim_.1, i / g2.dim_.1), (isOutside2_false _ _).2 ⟨⟨a1, a2⟩, a3, a4⟩, a5⟩
    · rintro ⟨c, hc, rfl⟩
      rw [isOutside2_false] at hc
      exact index2_range _ _ _ _ hc.1.1 hc.1.2 hc.2.1 hc.2.2
  · rintro ⟨x, y, z⟩ ⟨x', y', z'⟩ ha hb h
    rw [isOutside3_false] at ha hb
    simp only [VoxelMapUtil.getIndex] at h
    simp only at ha hb
    have h' : x + g3.dim_.1 * (y + g3.dim_.2.1 * z) = x' + g3.dim_.1 * (y' + g3.dim_.2.1 * z') := by
      linarith
    obtain ⟨e1, e2⟩ := index2_inj _ _ _ _ _ ha.1.1 ha.1.2 hb.1.1 hb.1.2 h'
    obtain ⟨e3, e4⟩ := index2_inj _ _ _ _ _ ha.2.1.1 ha.2.1.2 hb.2.1.1 hb.2.1.2 e2
    rw [e1, e3, e4]
  · intro i
    constructor
    · rintro ⟨hi, hlt⟩
      rw [mul_assoc] at hlt
      obtain ⟨a1, a2, a3, a4, a5⟩ := index2_split _ _ i h3.1 hi hlt
      obtain ⟨b1, b2, b3, b4, b5⟩ := index2_split _ _ (i / g3.dim_.1) h3.2.1 a3 a4
      refine ⟨(i % g3.dim_.1, (i / g3.dim_.1) % g3.dim_.2.1, (i / g3.dim_.1) / g3.dim_.2.1),
        (isOutside3_false _ _).2 ⟨⟨a1, a2⟩, ⟨b1, b2⟩, b3, b4⟩, ?_⟩
      simp only [VoxelMapUtil.getIndex]
      rw [add_assoc, mul_assoc, ← mul_add, b5, a5]
    · rintro ⟨c, hc, rfl⟩
      rw [isOutside3_false] at hc
      exact index3_range _ _ _ _ _ _ hc.1.1 hc.1.2 hc.2.1.1 hc.2.1.2 hc.2.2.1 hc.2.2.2

/-- Witness of C2 on the freshly initialised 10 by 10 and 4 by 5 by 6 grids. -/
theorem getIndex_bijective_witness :
    ((∀ a b : Veci2, (OccMapUtil.initMap (10, 10) (0, 0) 1 0).isOutside a = false →
        (OccMapUtil.initMap (10, 10) (0, 0) 1 0).isOutside b = false →
        (OccMapUtil.initMap (10, 10) (0, 0) 1 0).getIndex a =
          (OccMapUtil.initMap (10, 10) (0, 0) 1 0).getIndex b → a = b) ∧
      (∀ i : Int, (0 ≤ i ∧ i < 10 * 10) ↔
        ∃ c : Veci2, (OccMapUtil.initMap (10, 10) (0, 0) 1 0).isOutside c = false ∧
          (OccMapUtil.initMap (10, 10) (0, 0) 1 0).getIndex c = i)) ∧
    ((∀ a b : Veci3, (VoxelMapUtil.initMap (4, 5, 6) (0, 0, 0) 1 0).isOutside a = false →
        (VoxelMapUtil.initMap (4, 5, 6) (0, 0, 0) 1 0).isOutside b = false →
        (VoxelMapUtil.initMap (4, 5, 6) (0, 0, 0) 1 0).getIndex a =
          (VoxelMapUtil.initMap (4, 5, 6) (0, 0, 0) 1 0).getIndex b → a = b) ∧
      (∀ i : Int, (0 ≤ i ∧ i < 4 * 5 * 6) ↔
        ∃ c : Veci3, (VoxelMapUtil.initMap (4, 5, 6) (0, 0, 0) 1 0).isOutside c = false ∧
          (VoxelMapUtil.initMap (4, 5, 6) (0, 0, 0) 1 0).getIndex c = i)) :=
  getIndex_bijective (OccMapUtil.initMap (10, 10) (0, 0) 1 0)
    (VoxelMapUtil.initMap (4, 5, 6) (0, 0, 0) 1 0) (by decide) (by decide)

end JPS

namespace JPS

/-- C3: at a cell coordinate with `isOutside` true, the coordinate overloads `isFree`,
`isOccupied` and `isUnknown` return false whatever cell array the grid holds (2-D and
3-D): the result does not depend on `map_`. -/
theorem queries_false_of_isOutside (g2 : OccMapUtil) (c2 : Veci2) (g3 : VoxelMapUtil)
    (c3 : Veci3) (h2 : g2.isOutside c2 = true) (h3 : g3.isOutside c3 = true) :
    (∀ m : Tmap,
        OccMapUtil.isFree { g2 with map_ := m } c2 = some false ∧
        OccMapUtil.isOccupied { g2 with map_ := m } c2 = some false ∧
        OccMapUtil.isUnknown { g2 with map_ := m } c2 = some false) ∧
    (∀ m : Tmap,
        VoxelMapUtil.isFree { g3 with map_ := m } c3 = some false ∧
        VoxelMapUtil.isOccupied { g3 with map_ := m } c3 = some false ∧
        VoxelMapUtil.isUnknown { g3 with map_ := m } c3 = some false) := by
  constructor
  · intro m
    have h : OccMapUtil.isOutside { g2 with map_ := m } c2 = true := h2
    simp [OccMapUtil.isFree, OccMapUtil.isOccupied, OccMapUtil.isUnknown, h]
  · intro m
    have h : VoxelMapUtil.isOutside { g3 with map_ := m } c3 = true := h3
    simp [VoxelMapUtil.isFree, VoxelMapUtil.isOccupied, VoxelMapUtil.isUnknown, h]

/-- Witness of C3: the cells `(10, 3)` and `(2, -1, 0)` lie outside the 10 by 10 grid and the
4 by 5 by 6 grid. -/
theorem queries_false_of_isOutside_witness :
    (∀ m : Tmap,
        OccMapUtil.isFree { OccMapUtil.initMap (10, 10) (0, 0) 1 0 with map_ := m } (10, 3) =
          some false ∧
        OccMapUtil.isOccupied { OccMapUtil.initMap (10, 10) (0, 0) 1 0 with map_ := m } (10, 3) =
          some false ∧
        OccMapUtil.isUnknown { OccMapUtil.initMap (10, 10) (0, 0) 1 0 with map_ := m } (10, 3) =
          some false) ∧
    (∀ m : Tmap,
        VoxelMapUtil.isFree { VoxelMapUtil.initMap (4, 5, 6) (0, 0, 0) 1 0 with map_ := m }
          (2, -1, 0) = some false ∧
        VoxelMapUtil.isOccupied { VoxelMapUtil.initMap (4, 5, 6) (0, 0, 0) 1 0 with map_ := m }
          (2, -1, 0) = some false ∧
        VoxelMapUtil.isUnknown { VoxelMapUtil.initMap (4, 5, 6) (0, 0, 0) 1 0 with map_ := m }
          (2, -1, 0) = some false) :=
  queries_false_of_isOutside (OccMapUtil.initMap (10, 10) (0, 0) 1 0) (10, 3)
    (VoxelMapUtil.initMap (4, 5, 6) (0, 0, 0) 1 0) (2, -1, 0) (by decide) (by decide)

/-- C4 fails as stated: on the 1 by 1 grid whose only cell holds -2, the cell `(0, 0)` is in
bounds and yet `isFree`, `isOccupied` and `isUnknown` all return false there. -/
theorem bounds_symmetry_fails :
    ¬ (OccMapUtil.isOutside ⟨[-2], 1, 0, 1, (0, 0), (1, 1)⟩ (0, 0) = true ↔
        (OccMapUtil.isFree ⟨[-2], 1, 0, 1, (0, 0), (1, 1)⟩ (0, 0) = some false ∧
         OccMapUtil.isOccupied ⟨[-2], 1, 0, 1, (0, 0), (1, 1)⟩ (0, 0) = some false ∧
         OccMapUtil.isUnknown ⟨[-2], 1, 0, 1, (0, 0), (1, 1)⟩ (0, 0) = some false)) := by
  decide

/-- C4 amended: on a grid whose cells all hold a value of at least -1 (unknown, free or
occupied), `isOutside c` is true if and only if the coordinate overloads `isFree`,
`isOccupied` and `isUnknown` all return false at `c` (2-D and 3-D). -/
theorem isOutside_iff_queries_false (g2 : OccMapUtil) (c2 : Veci2) (g3 : VoxelMapUtil)
    (c3 : Veci3) (h2 : ∀ v ∈ g2.map_, -1 ≤ v) (h3 : ∀ v ∈ g3.map_, -1 ≤ v) :
    (g2.isOutside c2 = true ↔
        (g2.isFree c2 = some false ∧ g2.isOccupied c2 = some false ∧
          g2.isUnknown c2 = some false)) ∧
    (g3.isOutside c3 = true ↔
        (g3.isFree c3 = some false ∧ g3.isOccupied c3 = some false ∧
          g3.isUnknown c3 = some false)) := by
  constructor
  · constructor
    · intro h
      simp [OccMapUtil.isFree, OccMapUtil.isOccupied, OccMapUtil.isUnknown, h]
    · rintro ⟨hf, ho, hu⟩
      by_contra hout
      simp only [OccMapUtil.isFree, OccMapUtil.isOccupied, OccMapUtil.isUnknown, hout,
        OccMapUtil.isFree_idx, OccMapUtil.isOccupied_idx] at hf ho hu
      cases hr : readCell g2.map_ (g2.getIndex c2) with
      | none => simp [hr] at hf
      | some v =>
        have hv := h2 v (readCell_mem _ _ _ hr)
        simp [hr] at hf ho hu
        simp only [val_free, val_unknown] at hf ho hu
        omega
  · constructor
    · intro h
      simp [VoxelMapUtil.isFree, VoxelMapUtil.isOccupied, VoxelMapUtil.isUnknown, h]
    · rintro ⟨hf, ho, hu⟩
      by_contra hout
      simp only [VoxelMapUtil.isFree, VoxelMapUtil.isOccupied, VoxelMapUtil.isUnknown, hout,
        VoxelMapUtil.isFree_idx, VoxelMapUtil.isOccupied_idx] at hf ho hu
      cases hr : readCell g3.map_ (g3.getIndex c3) with
      | none => simp [hr] at hf
      | some v =>
        have hv := h3 v (readCell_mem _ _ _ hr)
        simp [hr] at hf ho hu
        simp only [val_free, val_unknown] at hf ho hu
        omega

/-- Witness of the amended C4 on the freshly initialised 10 by 10 and 4 by 5 by 6 grids, at
an in-bounds cell. -/
theorem isOutside_iff_queries_false_witness :
    ((OccMapUtil.initMap (10, 10) (0, 0) 1 0).isOutside (3, 4) = true ↔
        ((OccMapUtil.initMap (10, 10) (0, 0) 1 0).isFree (3, 4) = some false ∧
          (OccMapUtil.initMap (10, 10) (0, 0) 1 0).isOccupied (3, 4) = some false ∧
          (OccMapUtil.initMap (10, 10) (0, 0) 1 0).isUnknown (3, 4) = some false)) ∧
    ((VoxelMapUtil.initMap (4, 5, 6) (0, 0, 0) 1 0).isOutside (1, 2, 3) = true ↔
        ((VoxelMapUtil.initMap (4, 5, 6) (0, 0, 0) 1 0).isFree (1, 2, 3) = some false ∧
          (VoxelMapUtil.initMap (4, 5, 6) (0, 0, 0) 1 0).isOccupied (1, 2, 3) = some false ∧
          (VoxelMapUtil.initMap (4, 5, 6) (0, 0, 0) 1 0).isUnknown (1, 2, 3) = some false)) :=
  isOutside_iff_queries_false (OccMapUtil.initMap (10, 10) (0, 0) 1 0) (3, 4)
    (VoxelMapUtil.initMap (4, 5, 6) (0, 0, 0) 1 0) (1, 2, 3) (by decide) (by decide)

end JPS

/-! ## Cell reads and writes, and loops -/

namespace JPS

theorem readCell_writeCell (m m' : Tmap) (j v i : Int) (h : writeCell m j v = some m') :
    readCell m' i = if i = j then some v else readCell m i := by
  unfold writeCell at h
  split at h
  · rename_i hj
    obtain ⟨hj0, hjl⟩ := hj
    have hm : m' = m.set j.toNat v := by cases h; rfl
    subst hm
    unfold readCell
    by_cases hi : 0 ≤ i
    · simp only [hi, if_true]
      by_cases hij : i = j
      · subst hij
        have hlt : i.toNat < m.length := by omega
        simp [List.getElem?_set, hlt]
      · have hne : j.toNat ≠ i.toNat := by omega
        simp [List.getElem?_set_ne hne, hij]
    · have hij : i ≠ j := by omega
      simp [hi, hij]
  · cases h

theorem length_writeCell (m m' : Tmap) (j v : Int) (h : writeCell m j v = some m') :
    m'.length = m.length := by
  unfold writeCell at h
  split at h
  · cases h; simp
  · cases h

theorem writeCell_defined (m : Tmap) (j v : Int) (h0 : 0 ≤ j) (hl : j < m.length) :
    ∃ m', writeCell m j v = some m' := by
  unfold writeCell
  exact ⟨_, if_pos ⟨h0, hl⟩⟩

theorem mem_loopRange (lo hi a : Int) : a ∈ loopRange lo hi ↔ lo ≤ a ∧ a ≤ hi := by
  unfold loopRange
  simp only [List.mem_map, List.mem_range]
  constructor
  · rintro ⟨k, hk, rfl⟩
    omega
  · rintro ⟨h1, h2⟩
    exact ⟨(a - lo).toNat, by omega, by omega⟩

/-- A loop whose body is defined under an invariant `I`, keeps `I`, keeps `Q` and establishes
`Q` at every iteration satisfying `T`: the loop is defined, keeps `I` and `Q`, and
establishes `Q` as soon as one iteration satisfies `T`. -/
theorem foldlM_reach {σ α : Type} (f : σ → α → Option σ) (I Q : σ → Prop) (T : α → Prop)
    (hstep : ∀ s b, I s → ∃ s', f s b = some s' ∧ I s' ∧ (Q s → Q s') ∧ (T b → Q s')) :
    ∀ (l : List α) (s : σ), I s →
      ∃ s', l.foldlM f s = some s' ∧ I s' ∧ (Q s → Q s') ∧ ((∃ b ∈ l, T b) → Q s') := by
  intro l
  induction l with
  | nil =>
    intro s hs
    exact ⟨s, rfl, hs, id, by simp⟩
  | cons b t ih =>
    intro s hs
    obtain ⟨s1, h1, hI1, hQ1, hT1⟩ := hstep s b hs
    obtain ⟨s2, h2, hI2, hQ2, hT2⟩ := ih s1 hI1
    refine ⟨s2, ?_, hI2, fun h => hQ2 (hQ1 h), ?_⟩
    · simp [List.foldlM_cons, h1, h2]
    · rintro ⟨x, hx, hTx⟩
      rcases List.mem_cons.1 hx with rfl | hxt
      · exact hQ2 (hT1 hTx)
      · exact hT2 ⟨x, hxt, hTx⟩

/-- A loop whose body, whenever it is defined, relates the state before to the state after by
a reflexive and transitive relation, does so as a whole. -/
theorem foldlM_rel {σ α : Type} (f : σ → α → Option σ) (R : σ → σ → Prop)
    (hrefl : ∀ s, R s s) (htrans : ∀ a b c, R a b → R b c → R a c)
    (hstep : ∀ s b s', f s b = some s' → R s s') :
    ∀ (l : List α) (s s' : σ), l.foldlM f s = some s' → R s s' := by
  intro l
  induction l with
  | nil =>
    intro s s' h
    simp at h
    subst h
    exact hrefl s
  | cons b t ih =>
    intro s s' h
    simp only [List.foldlM_cons, Option.bind_eq_bind, Option.bind_eq_some] at h
    obtain ⟨s1, h1, h2⟩ := h
    exact htrans _ _ _ (hstep _ _ _ h1) (ih _ _ h2)

end JPS

/-! ## Point-cloud insertion `readMap` -/

namespace JPS

theorem VoxelMapUtil.inflateCell_reach (g : VoxelMapUtil) (j : Int) (hj0 : 0 ≤ j)
    (hjt : j < g.total_size_) (m : Tmap) (ix iy iz : Int) (hI : g.total_size_ ≤ m.length) :
    ∃ m', g.inflateCell m ix iy iz = some m' ∧ g.total_size_ ≤ m'.length ∧
      (readCell m j = some val_occ → readCell m' j = some val_occ) ∧
      (ix + g.dim_.1 * iy + g.dim_.1 * g.dim_.2.1 * iz = j → readCell m' j = some val_occ) := by
  unfold VoxelMapUtil.inflateCell
  simp only
  split
  · rename_i hc
    obtain ⟨m', hm'⟩ := writeCell_defined m _ val_occ hc.1 (lt_of_lt_of_le hc.2 hI)
    refine ⟨m', hm', ?_, ?_, ?_⟩
    · rw [length_writeCell _ _ _ _ hm']; exact hI
    · intro hq
      rw [readCell_writeCell _ _ _ _ j hm']
      split
      · rfl
      · exact hq
    · intro he
      rw [readCell_writeCell _ _ _ _ j hm', if_pos he.symm]
  · rename_i hc
    refine ⟨m, rfl, hI, id, ?_⟩
    intro he
    exact absurd ⟨he ▸ hj0, he ▸ hjt⟩ hc

theorem VoxelMapUtil.inflate_reach (g : VoxelMapUtil) (j : Int) (hj0 : 0 ≤ j)
    (hjt : j < g.total_size_) (x y z r : Int) (m : Tmap) (hI : g.total_size_ ≤ m.length) :
    ∃ m', g.inflate x y z r m = some m' ∧ g.total_size_ ≤ m'.length ∧
      (readCell m j = some val_occ → readCell m' j = some val_occ) ∧
      ((∃ ix ∈ loopRange (x - r) (x + r), ∃ iy ∈ loopRange (y - r) (y + r),
          ∃ iz ∈ loopRange (z - r) (z + r),
            ix + g.dim_.1 * iy + g.dim_.1 * g.dim_.2.1 * iz = j) →
        readCell m' j = some val_occ) := by
  unfold VoxelMapUtil.inflate
  refine foldlM_reach _ (fun m => g.total_size_ ≤ m.length)
    (fun m => readCell m j = some val_occ)
    (fun ix => ∃ iy ∈ loopRange (y - r) (y + r), ∃ iz ∈ loopRange (z - r) (z + r),
      ix + g.dim_.1 * iy + g.dim_.1 * g.dim_.2.1 * iz = j) ?_ _ m hI
  intro m1 ix h1
  refine foldlM_reach _ (fun m => g.total_size_ ≤ m.length)
    (fun m => readCell m j = some val_occ)
    (fun iy => ∃ iz ∈ loopRange (z - r) (z + r),
      ix + g.dim_.1 * iy + g.dim_.1 * g.dim_.2.1 * iz = j) ?_ _ m1 h1
  intro m2 iy h2
  refine foldlM_reach _ (fun m => g.total_size_ ≤ m.length)
    (fun m => readCell m j = some val_occ)
    (fun iz => ix + g.dim_.1 * iy + g.dim_.1 * g.dim_.2.1 * iz = j) ?_ _ m2 h2
  intro m3 iz h3
  exact g.inflateCell_reach j hj0 hjt m3 ix iy iz h3

theorem VoxelMapUtil.seedCell_eq (g : VoxelMapUtil) (p : PointXYZ) :
    g.seedCell p = (max (g.floatToInt (p.x, p.y, p.z)).1 0,
      max (g.floatToInt (p.x, p.y, p.z)).2.1 0, max (g.floatToInt (p.x, p.y, p.z)).2.2 0) := by
  simp only [VoxelMapUtil.seedCell, VoxelMapUtil.floatToInt]
  refine Prod.ext ?_ (Prod.ext ?_ ?_) <;> simp only <;> split <;> omega

theorem VoxelMapUtil.readMapStep_reach (g : VoxelMapUtil) (p : PointXYZ) (j : Int)
    (hj0 : 0 ≤ j) (hjt : j < g.total_size_) (m : Tmap) (hI : g.total_size_ ≤ m.length) :
    ∃ m', g.readMapStep m p = some m' ∧ g.total_size_ ≤ m'.length ∧
      ((∃ ix ∈ loopRange ((g.seedCell p).1 - ⌈g.inflated_r_ / g.res_⌉)
            ((g.seedCell p).1 + ⌈g.inflated_r_ / g.res_⌉),
          ∃ iy ∈ loopRange ((g.seedCell p).2.1 - ⌈g.inflated_r_ / g.res_⌉)
            ((g.seedCell p).2.1 + ⌈g.inflated_r_ / g.res_⌉),
          ∃ iz ∈ loopRange ((g.seedCell p).2.2 - ⌈g.inflated_r_ / g.res_⌉)
            ((g.seedCell p).2.2 + ⌈g.inflated_r_ / g.res_⌉),
            ix + g.dim_.1 * iy + g.dim_.1 * g.dim_.2.1 * iz = j) →
        readCell m' j = some val_occ) := by
  have hseed : ∃ m1, (if 0 ≤ (g.seedCell p).1 + g.dim_.1 * (g.seedCell p).2.1 +
        g.dim_.1 * g.dim_.2.1 * (g.seedCell p).2.2 ∧
        (g.seedCell p).1 + g.dim_.1 * (g.seedCell p).2.1 +
          g.dim_.1 * g.dim_.2.1 * (g.seedCell p).2.2 < g.total_size_
      then writeCell m ((g.seedCell p).1 + g.dim_.1 * (g.seedCell p).2.1 +
        g.dim_.1 * g.dim_.2.1 * (g.seedCell p).2.2) val_occ else some m) = some m1 ∧
      g.total_size_ ≤ m1.length := by
    split
    · rename_i hc
      obtain ⟨m1, hm1⟩ := writeCell_defined m _ val_occ hc.1 (lt_of_lt_of_le hc.2 hI)
      exact ⟨m1, hm1, by rw [length_writeCell _ _ _ _ hm1]; exact hI⟩
    · exact ⟨m, rfl, hI⟩
  obtain ⟨m1, hm1, hI1⟩ := hseed
  obtain ⟨m', hm', hI', -, hT⟩ := g.inflate_reach j hj0 hjt (g.seedCell p).1 (g.seedCell p).2.1
    (g.seedCell p).2.2 ⌈g.inflated_r_ / g.res_⌉ m1 hI1
  refine ⟨m', ?_, hI', hT⟩
  simp only [VoxelMapUtil.readMapStep, hm1, Option.some_bind, hm']

end JPS

namespace JPS

/-- C5 fails as stated on a 2-D grid: the fresh 4 by 4 grid of resolution 1 and inflation
radius 1 is initialised, the cell `(2, 0)` is in bounds and within `m = 1` of the seed
`(1, 1)` of the point `(1.4, 1.4)`, and yet `readMap` of that point has no result (it reads
the origin coefficient `origin_d_(2)`, which a 2-vector does not have), so the cell does
not hold `val_occ` after the call. -/
theorem readMap_covers_cube_2d_fails :
    (OccMapUtil.initMap (4, 4) (0, 0) 1 1).total_size_ = 4 * 4 ∧
      ((OccMapUtil.initMap (4, 4) (0, 0) 1 1).map_.length : Int) =
        (OccMapUtil.initMap (4, 4) (0, 0) 1 1).total_size_ ∧
      (OccMapUtil.initMap (4, 4) (0, 0) 1 1).isOutside (2, 0) = false ∧
      |2 - max ((OccMapUtil.initMap (4, 4) (0, 0) 1 1).floatToInt (14 / 10, 14 / 10)).1 0| ≤
        ⌈(OccMapUtil.initMap (4, 4) (0, 0) 1 1).inflated_r_ /
          (OccMapUtil.initMap (4, 4) (0, 0) 1 1).res_⌉ ∧
      |0 - max ((OccMapUtil.initMap (4, 4) (0, 0) 1 1).floatToInt (14 / 10, 14 / 10)).2 0| ≤
        ⌈(OccMapUtil.initMap (4, 4) (0, 0) 1 1).inflated_r_ /
          (OccMapUtil.initMap (4, 4) (0, 0) 1 1).res_⌉ ∧
      ¬ ∃ g', (OccMapUtil.initMap (4, 4) (0, 0) 1 1).readMap [⟨14 / 10, 14 / 10, 0⟩] =
          some g' ∧
        readCell g'.map_ (g'.getIndex (2, 0)) = some val_occ := by
  refine ⟨by decide, by decide, by decide, by decide!, by decide!, ?_⟩
  rintro ⟨g', h, -⟩
  have hn : (OccMapUtil.initMap (4, 4) (0, 0) 1 1).readMap [⟨14 / 10, 14 / 10, 0⟩] = none :=
    rfl
  rw [hn] at h
  cases h

/-- C5 amended, point-cloud insertion covers the inflation cube on every initialised 3-D
grid: on a 3-D grid whose `total_size_` is the product of its dimensions and the length of
its cell array, after `readMap` of the single point `p` every in-bounds cell `c` within
`m = ceil (inflated_r_ / res_)` of the seed on every axis holds `val_occ`; the seed is the
cell of `p` with each negative index replaced by 0.  The call is defined, and the signs of
`res_` and `inflated_r_` play no role. -/
theorem readMap_covers_cube (g : VoxelMapUtil) (p : PointXYZ) (c : Veci3)
    (hsize : g.total_size_ = g.dim_.1 * g.dim_.2.1 * g.dim_.2.2)
    (hlen : (g.map_.length : Int) = g.total_size_)
    (hin : g.isOutside c = false)
    (hx : |c.1 - max (g.floatToInt (p.x, p.y, p.z)).1 0| ≤ ⌈g.inflated_r_ / g.res_⌉)
    (hy : |c.2.1 - max (g.floatToInt (p.x, p.y, p.z)).2.1 0| ≤ ⌈g.inflated_r_ / g.res_⌉)
    (hz : |c.2.2 - max (g.floatToInt (p.x, p.y, p.z)).2.2 0| ≤ ⌈g.inflated_r_ / g.res_⌉) :
    ∃ g', g.readMap [p] = some g' ∧ readCell g'.map_ (g'.getIndex c) = some val_occ := by
  rw [isOutside3_false] at hin
  obtain ⟨j0, jt⟩ := index3_range _ _ _ _ _ _ hin.1.1 hin.1.2 hin.2.1.1 hin.2.1.2
    hin.2.2.1 hin.2.2.2
  rw [← hsize] at jt
  obtain ⟨m', hm', -, hT⟩ := g.readMapStep_reach p _ j0 jt g.map_ (le_of_eq hlen.symm)
  refine ⟨{ g with map_ := m' }, ?_, ?_⟩
  · simp [VoxelMapUtil.readMap, hm']
  · apply hT
    rw [g.seedCell_eq p]
    rw [abs_le] at hx hy hz
    refine ⟨c.1, (mem_loopRange _ _ _).2 ?_, c.2.1, (mem_loopRange _ _ _).2 ?_, c.2.2,
      (mem_loopRange _ _ _).2 ?_, rfl⟩
    · constructor <;> linarith [hx.1, hx.2]
    · constructor <;> linarith [hy.1, hy.2]
    · constructor <;> linarith [hz.1, hz.2]

/-- Witness of the amended C5: the 4 by 4 by 4 grid of resolution 1 and inflation radius 1,
the point `(1.4, 1.4, 1.4)` whose seed is `(1, 1, 1)`, and the cell `(2, 0, 1)`. -/
theorem readMap_covers_cube_witness :
    ∃ g', (VoxelMapUtil.initMap (4, 4, 4) (0, 0, 0) 1 1).readMap
        [⟨14 / 10, 14 / 10, 14 / 10⟩] = some g' ∧
      readCell g'.map_ (g'.getIndex (2, 0, 1)) = some val_occ :=
  readMap_covers_cube (VoxelMapUtil.initMap (4, 4, 4) (0, 0, 0) 1 1)
    ⟨14 / 10, 14 / 10, 14 / 10⟩ (2, 0, 1) (by decide) (by decide) (by decide)
    (by decide!) (by decide!) (by decide!)

end JPS

/-! ## Insertion only raises cells -/

namespace JPS

theorem RaisedFrom.refl (m : Tmap) : RaisedFrom m m := fun _ => Or.inl rfl

theorem RaisedFrom.trans (a b c : Tmap) (h1 : RaisedFrom a b) (h2 : RaisedFrom b c) :
    RaisedFrom a c := by
  intro i
  rcases h2 i with h | h | h
  · rw [h]; exact h1 i
  · exact Or.inr (Or.inl h)
  · exact Or.inr (Or.inr h)

theorem RaisedFrom.of_writeCell (m m' : Tmap) (j v : Int) (hv : v = val_occ ∨ v = val_cyl_crt)
    (h : writeCell m j v = some m') : RaisedFrom m m' := by
  intro i
  rw [readCell_writeCell _ _ _ _ i h]
  split
  · rcases hv with rfl | rfl
    · exact Or.inr (Or.inl rfl)
    · exact Or.inr (Or.inr rfl)
  · exact Or.inl rfl

theorem RaisedFrom.of_guarded (c : Prop) [Decidable c] (m m' : Tmap) (j v : Int)
    (hv : v = val_occ ∨ v = val_cyl_crt)
    (h : (if c then writeCell m j v else some m) = some m') : RaisedFrom m m' := by
  split at h
  · exact RaisedFrom.of_writeCell _ _ _ _ hv h
  · cases h; exact RaisedFrom.refl _

theorem guarded_defined (c : Prop) [Decidable c] (t : Int) (m : Tmap) (j v : Int)
    (hc : c → 0 ≤ j ∧ j < t) (hI : t ≤ m.length) :
    ∃ m', (if c then writeCell m j v else some m) = some m' ∧ t ≤ m'.length := by
  split
  · rename_i h
    obtain ⟨m', hm'⟩ := writeCell_defined m j v (hc h).1 (lt_of_lt_of_le (hc h).2 hI)
    exact ⟨m', hm', by rw [length_writeCell _ _ _ _ hm']; exact hI⟩
  · exact ⟨m, rfl, hI⟩

/-- A loop whose body is defined under an invariant it keeps is defined and keeps it. -/
theorem foldlM_defined {σ α : Type} (f : σ → α → Option σ) (I : σ → Prop)
    (hstep : ∀ s b, I s → ∃ s', f s b = some s' ∧ I s') (l : List α) (s : σ) (hs : I s) :
    ∃ s', l.foldlM f s = some s' ∧ I s' := by
  obtain ⟨s', h, hI, -, -⟩ := foldlM_reach f I (fun _ => True) (fun _ => False)
    (fun s b hs => by
      obtain ⟨s', h1, h2⟩ := hstep s b hs
      exact ⟨s', h1, h2, fun _ => trivial, fun hf => hf.elim⟩) l s hs
  exact ⟨s', h, hI⟩

theorem VoxelMapUtil.readMapStep_raised (g : VoxelMapUtil) (m m' : Tmap) (p : PointXYZ)
    (h : g.readMapStep m p = some m') : RaisedFrom m m' := by
  simp only [VoxelMapUtil.readMapStep, Option.bind_eq_some] at h
  obtain ⟨m1, h1, h2⟩ := h
  refine RaisedFrom.trans _ _ _ (RaisedFrom.of_guarded _ _ _ _ _ (Or.inl rfl) h1) ?_
  unfold VoxelMapUtil.inflate at h2
  refine foldlM_rel _ RaisedFrom RaisedFrom.refl RaisedFrom.trans ?_ _ _ _ h2
  intro s ix s' hx
  refine foldlM_rel _ RaisedFrom RaisedFrom.refl RaisedFrom.trans ?_ _ _ _ hx
  intro s iy s' hy
  refine foldlM_rel _ RaisedFrom RaisedFrom.refl RaisedFrom.trans ?_ _ _ _ hy
  intro s iz s' hz
  exact RaisedFrom.of_guarded _ _ _ _ _ (Or.inl rfl) hz

theorem VoxelMapUtil.readMapStep_defined (g : VoxelMapUtil) (m : Tmap) (p : PointXYZ)
    (hI : g.total_size_ ≤ m.length) :
    ∃ m', g.readMapStep m p = some m' ∧ g.total_size_ ≤ m'.length := by
  obtain ⟨m1, h1, hI1⟩ := guarded_defined
    (0 ≤ (g.seedCell p).1 + g.dim_.1 * (g.seedCell p).2.1 +
        g.dim_.1 * g.dim_.2.1 * (g.seedCell p).2.2 ∧
      (g.seedCell p).1 + g.dim_.1 * (g.seedCell p).2.1 +
        g.dim_.1 * g.dim_.2.1 * (g.seedCell p).2.2 < g.total_size_)
    g.total_size_ m _ val_occ id hI
  have h2 : ∃ m', g.inflate (g.seedCell p).1 (g.seedCell p).2.1 (g.seedCell p).2.2
      ⌈g.inflated_r_ / g.res_⌉ m1 = some m' ∧ g.total_size_ ≤ m'.length := by
    unfold VoxelMapUtil.inflate
    refine foldlM_defined _ (fun (m : Tmap) => g.total_size_ ≤ m.length) ?_ _ _ hI1
    intro s ix hs
    refine foldlM_defined _ (fun (m : Tmap) => g.total_size_ ≤ m.length) ?_ _ _ hs
    intro s iy hs
    refine foldlM_defined _ (fun (m : Tmap) => g.total_size_ ≤ m.length) ?_ _ _ hs
    intro s iz hs
    exact guarded_defined _ g.total_size_ s _ val_occ id hs
  obtain ⟨m', hm', hI'⟩ := h2
  exact ⟨m', by simp only [VoxelMapUtil.readMapStep, h1, Option.some_bind, hm'], hI'⟩

theorem OccMapUtil.readMap_eq_some (g g' : OccMapUtil) (pts : List PointXYZ)
    (h : g.readMap pts = some g') : g'.map_ = g.map_ := by
  cases pts with
  | nil =>
    simp only [OccMapUtil.readMap, List.foldlM_nil, Option.pure_def, Option.map_some',
      Option.some.injEq] at h
    rw [← h]
  | cons p t =>
    have hn : g.readMapStep g.map_ p = none := rfl
    simp [OccMapUtil.readMap, List.foldlM_cons, hn] at h

theorem cylinderStep_raised (o0 o1 res infl : ℚ) (dim0 total : Int) (m m' : Tmap)
    (p : PointXYZ) (h : cylinderStep o0 o1 res infl dim0 total m p = some m') :
    RaisedFrom m m' := by
  simp only [cylinderStep] at h
  split at h
  · cases h; exact RaisedFrom.refl _
  · simp only [Option.bind_eq_some] at h
    obtain ⟨m1, h1, h2⟩ := h
    refine RaisedFrom.trans _ _ _ (RaisedFrom.of_guarded _ _ _ _ _ (Or.inr rfl) h1) ?_
    unfold cylinderInflate at h2
    refine foldlM_rel _ RaisedFrom RaisedFrom.refl RaisedFrom.trans ?_ _ _ _ h2
    intro s ix s' hx
    refine foldlM_rel _ RaisedFrom RaisedFrom.refl RaisedFrom.trans ?_ _ _ _ hx
    intro s iy s' hy
    exact RaisedFrom.of_guarded _ _ _ _ _ (Or.inl rfl) hy

theorem cylinderStep_defined (o0 o1 res infl : ℚ) (dim0 total : Int) (m : Tmap)
    (p : PointXYZ) (hI : total ≤ m.length) :
    ∃ m', cylinderStep o0 o1 res infl dim0 total m p = some m' ∧ total ≤ m'.length := by
  simp only [cylinderStep]
  split
  · exact ⟨m, rfl, hI⟩
  · obtain ⟨m1, h1, hI1⟩ := guarded_defined
      (0 ≤ max (stdRound ((p.x - o0) / res - 1 / 2)) 0 +
          dim0 * max (stdRound ((p.y - o1) / res - 1 / 2)) 0 ∧
        max (stdRound ((p.x - o0) / res - 1 / 2)) 0 +
          dim0 * max (stdRound ((p.y - o1) / res - 1 / 2)) 0 < total)
      total m _ val_cyl_crt id hI
    have h2 : ∃ m', cylinderInflate dim0 total (max (stdRound ((p.x - o0) / res - 1 / 2)) 0)
        (max (stdRound ((p.y - o1) / res - 1 / 2)) 0)
        ⌈(1 + infl) * p.z * (1 / 2) / res⌉ m1 = some m' ∧ total ≤ m'.length := by
      unfold cylinderInflate
      refine foldlM_defined _ (fun (m : Tmap) => total ≤ m.length) ?_ _ _ hI1
      intro s ix hs
      refine foldlM_defined _ (fun (m : Tmap) => total ≤ m.length) ?_ _ _ hs
      intro s iy hs
      exact guarded_defined _ total s _ val_occ (fun h => ⟨h.1, h.2.1⟩) hs
    obtain ⟨m', hm', hI'⟩ := h2
    exact ⟨m', by simp only [h1, Option.some_bind, hm'], hI'⟩

end JPS

namespace JPS

theorem RaisedFrom.monotone (m m' : Tmap) (h : RaisedFrom m m') (i : Int) :
    (readCell m' i ≠ readCell m i →
        readCell m' i = some val_occ ∨ readCell m' i = some val_cyl_crt) ∧
      (∀ v, readCell m i = some v → v > val_free →
        ∃ v', readCell m' i = some v' ∧ v' > val_free) ∧
      (readCell m' i ≠ readCell m i →
        readCell m' i ≠ some val_free ∧ readCell m' i ≠ some val_unknown) := by
  rcases h i with h | h | h
  · refine ⟨fun hne => absurd h hne, fun v hv hpos => ⟨v, by rw [h, hv], hpos⟩,
      fun hne => absurd h hne⟩
  · refine ⟨fun _ => Or.inl h, fun _ _ _ => ⟨val_occ, h, by decide⟩, fun _ => ?_⟩
    rw [h]; decide
  · refine ⟨fun _ => Or.inr h, fun _ _ _ => ⟨val_cyl_crt, h, by decide⟩, fun _ => ?_⟩
    rw [h]; decide

/-- C8, insertion monotonicity: whenever a call of `readMap` or of `updateCylinders` returns,
for any grid (2-D or 3-D) and any input sequence, every cell whose value changed holds
`val_occ` or `val_cyl_crt`, every cell with a value above `val_free` before the call has one
after it, and no changed cell holds `val_free` or `val_unknown`.  The 3-D `readMap` and both
`updateCylinders` do return on every grid whose `total_size_` does not exceed the length of
its cell array. -/
theorem insertion_monotone (g3 : VoxelMapUtil) (g2 : OccMapUtil) (pts : List PointXYZ) :
    ((((g3.total_size_ ≤ g3.map_.length) → ∃ g', g3.readMap pts = some g') ∧
      ∀ g', g3.readMap pts = some g' → ∀ i : Int,
        (readCell g'.map_ i ≠ readCell g3.map_ i →
          readCell g'.map_ i = some val_occ ∨ readCell g'.map_ i = some val_cyl_crt) ∧
        (∀ v, readCell g3.map_ i = some v → v > val_free →
          ∃ v', readCell g'.map_ i = some v' ∧ v' > val_free) ∧
        (readCell g'.map_ i ≠ readCell g3.map_ i →
          readCell g'.map_ i ≠ some val_free ∧ readCell g'.map_ i ≠ some val_unknown))) ∧
    ((((g2.total_size_ ≤ g2.map_.length) → ∃ g', g2.updateCylinders pts = some g') ∧
      ∀ g', g2.updateCylinders pts = some g' → ∀ i : Int,
        (readCell g'.map_ i ≠ readCell g2.map_ i →
          readCell g'.map_ i = some val_occ ∨ readCell g'.map_ i = some val_cyl_crt) ∧
        (∀ v, readCell g2.map_ i = some v → v > val_free →
          ∃ v', readCell g'.map_ i = some v' ∧ v' > val_free) ∧
        (readCell g'.map_ i ≠ readCell g2.map_ i →
          readCell g'.map_ i ≠ some val_free ∧ readCell g'.map_ i ≠ some val_unknown))) ∧
    ((((g3.total_size_ ≤ g3.map_.length) → ∃ g', g3.updateCylinders pts = some g') ∧
      ∀ g', g3.updateCylinders pts = some g' → ∀ i : Int,
        (readCell g'.map_ i ≠ readCell g3.map_ i →
          readCell g'.map_ i = some val_occ ∨ readCell g'.map_ i = some val_cyl_crt) ∧
        (∀ v, readCell g3.map_ i = some v → v > val_free →
          ∃ v', readCell g'.map_ i = some v' ∧ v' > val_free) ∧
        (readCell g'.map_ i ≠ readCell g3.map_ i →
          readCell g'.map_ i ≠ some val_free ∧ readCell g'.map_ i ≠ some val_unknown))) ∧
    (∀ g', g2.readMap pts = some g' → ∀ i : Int,
        (readCell g'.map_ i ≠ readCell g2.map_ i →
          readCell g'.map_ i = some val_occ ∨ readCell g'.map_ i = some val_cyl_crt) ∧
        (∀ v, readCell g2.map_ i = some v → v > val_free →
          ∃ v', readCell g'.map_ i = some v' ∧ v' > val_free) ∧
        (readCell g'.map_ i ≠ readCell g2.map_ i →
          readCell g'.map_ i ≠ some val_free ∧ readCell g'.map_ i ≠ some val_unknown)) := by
  refine ⟨⟨?_, ?_⟩, ⟨?_, ?_⟩, ⟨?_, ?_⟩, ?_⟩
  · intro hI
    obtain ⟨m', hm', -⟩ := foldlM_defined g3.readMapStep
      (fun (m : Tmap) => g3.total_size_ ≤ m.length)
      (fun s b hs => g3.readMapStep_defined s b hs) pts g3.map_ hI
    exact ⟨{ g3 with map_ := m' }, by simp only [VoxelMapUtil.readMap, hm', Option.map_some']⟩
  · intro g' hg' i
    simp only [VoxelMapUtil.readMap, Option.map_eq_some'] at hg'
    obtain ⟨m', hm', rfl⟩ := hg'
    exact RaisedFrom.monotone _ _ (foldlM_rel _ RaisedFrom RaisedFrom.refl RaisedFrom.trans
      (fun s b s' h => g3.readMapStep_raised s s' b h) _ _ _ hm') i
  · intro hI
    obtain ⟨m', hm', -⟩ := foldlM_defined _ (fun (m : Tmap) => g2.total_size_ ≤ m.length)
      (fun s b hs => cylinderStep_defined g2.origin_d_.1 g2.origin_d_.2 g2.res_
        g2.inflated_r_ g2.dim_.1 g2.total_size_ s b hs) pts g2.map_ hI
    exact ⟨{ g2 with map_ := m' },
      by simp only [OccMapUtil.updateCylinders, hm', Option.map_some']⟩
  · intro g' hg' i
    simp only [OccMapUtil.updateCylinders, Option.map_eq_some'] at hg'
    obtain ⟨m', hm', rfl⟩ := hg'
    exact RaisedFrom.monotone _ _ (foldlM_rel _ RaisedFrom RaisedFrom.refl RaisedFrom.trans
      (fun s b s' h => cylinderStep_raised _ _ _ _ _ _ s s' b h) _ _ _ hm') i
  · intro hI
    obtain ⟨m', hm', -⟩ := foldlM_defined _ (fun (m : Tmap) => g3.total_size_ ≤ m.length)
      (fun s b hs => cylinderStep_defined g3.origin_d_.1 g3.origin_d_.2.1 g3.res_
        g3.inflated_r_ g3.dim_.1 g3.total_size_ s b hs) pts g3.map_ hI
    exact ⟨{ g3 with map_ := m' },
      by simp only [VoxelMapUtil.updateCylinders, hm', Option.map_some']⟩
  · intro g' hg' i
    simp only [VoxelMapUtil.updateCylinders, Option.map_eq_some'] at hg'
    obtain ⟨m', hm', rfl⟩ := hg'
    exact RaisedFrom.monotone _ _ (foldlM_rel _ RaisedFrom RaisedFrom.refl RaisedFrom.trans
      (fun s b s' h => cylinderStep_raised _ _ _ _ _ _ s s' b h) _ _ _ hm') i
  · intro g' hg' i
    have hm := g2.readMap_eq_some g' pts hg'
    rw [hm]
    exact RaisedFrom.monotone _ _ (RaisedFrom.refl _) i

/-- Witness of C8: on the 4 by 4 by 4 grid of inflation radius 1 and on the 10 by 10 grid,
`readMap` and `updateCylinders` of two points return, and the cells 21 and 55 they raise
hold `val_occ` or `val_cyl_crt` afterwards. -/
theorem insertion_monotone_witness :
    (∃ g', (VoxelMapUtil.initMap (4, 4, 4) (0, 0, 0) 1 1).readMap
          [⟨14 / 10, 14 / 10, 14 / 10⟩, ⟨5, 5, 2⟩] = some g' ∧
        (readCell g'.map_ 21 ≠ readCell (VoxelMapUtil.initMap (4, 4, 4) (0, 0, 0) 1 1).map_ 21 →
          readCell g'.map_ 21 = some val_occ ∨ readCell g'.map_ 21 = some val_cyl_crt)) ∧
    (∃ g', (OccMapUtil.initMap (10, 10) (0, 0) 1 0).updateCylinders
          [⟨14 / 10, 14 / 10, 14 / 10⟩, ⟨5, 5, 2⟩] = some g' ∧
        (readCell g'.map_ 55 ≠ readCell (OccMapUtil.initMap (10, 10) (0, 0) 1 0).map_ 55 →
          readCell g'.map_ 55 = some val_occ ∨ readCell g'.map_ 55 = some val_cyl_crt)) := by
  have h := insertion_monotone (VoxelMapUtil.initMap (4, 4, 4) (0, 0, 0) 1 1)
    (OccMapUtil.initMap (10, 10) (0, 0) 1 0) [⟨14 / 10, 14 / 10, 14 / 10⟩, ⟨5, 5, 2⟩]
  obtain ⟨a, ha⟩ := h.1.1 (by decide)
  obtain ⟨b, hb⟩ := h.2.1.1 (by decide)
  exact ⟨⟨a, ha, (h.1.2 a ha 21).1⟩, ⟨b, hb, (h.2.1.2 b hb 55).1⟩⟩

end JPS

/-! ## Scenarios and failing inputs of the insertions -/

namespace JPS

/-- C6, evaluated at a failing input: on the fresh 4 by 4 by 4 grid with inflation radius 0,
the point `(5.4, 0.4, 0.4)` has the seed `(5, 0, 0)`, which is outside the grid, and
`m = 0`; all the same `readMap` changes the cell `(1, 1, 0)`, of linear index 5, from
`val_free` to `val_occ`. -/
theorem readMap_outside_seed_wraps :
    (VoxelMapUtil.initMap (4, 4, 4) (0, 0, 0) 1 0).seedCell ⟨54 / 10, 4 / 10, 4 / 10⟩ =
        (5, 0, 0) ∧
      (VoxelMapUtil.initMap (4, 4, 4) (0, 0, 0) 1 0).isOutside (5, 0, 0) = true ∧
      ⌈(VoxelMapUtil.initMap (4, 4, 4) (0, 0, 0) 1 0).inflated_r_ /
        (VoxelMapUtil.initMap (4, 4, 4) (0, 0, 0) 1 0).res_⌉ = 0 ∧
      (VoxelMapUtil.initMap (4, 4, 4) (0, 0, 0) 1 0).isOutside (1, 1, 0) = false ∧
      readCell (VoxelMapUtil.initMap (4, 4, 4) (0, 0, 0) 1 0).map_
        ((VoxelMapUtil.initMap (4, 4, 4) (0, 0, 0) 1 0).getIndex (1, 1, 0)) = some val_free ∧
      ((VoxelMapUtil.initMap (4, 4, 4) (0, 0, 0) 1 0).readMap
          [⟨54 / 10, 4 / 10, 4 / 10⟩]).map
        (fun g' => readCell g'.map_ (g'.getIndex (1, 1, 0))) = some (some val_occ) := by
  decide!

/-- C7 fails as stated: on the fresh 2-D grid with dimensions `[10, 10]`, origin `[0, 0]`,
resolution 1 and inflation radius 0, `readMap` of the point `(5.4, 5.4)` has no result (it
reads the origin coefficient `origin_d_(2)`, which a 2-vector does not have), so it does
not leave the cell `(5, 5)` occupied and the others free. -/
theorem readMap_scenario_2d_fails :
    ¬ ∃ g', (OccMapUtil.initMap (10, 10) (0, 0) 1 0).readMap [⟨54 / 10, 54 / 10, 0⟩] =
        some g' ∧
      readCell g'.map_ (g'.getIndex (5, 5)) = some val_occ ∧
      ∀ c : Veci2, g'.isOutside c = false → c ≠ (5, 5) →
        readCell g'.map_ (g'.getIndex c) = some val_free := by
  rintro ⟨g', h, -⟩
  have hn : (OccMapUtil.initMap (10, 10) (0, 0) 1 0).readMap [⟨54 / 10, 54 / 10, 0⟩] = none :=
    rfl
  rw [hn] at h
  cases h

/-- C7 amended: on the fresh 3-D grid with dimensions `[10, 10, 1]`, origin `[0, 0, 0]`,
resolution 1 and inflation radius 0, `readMap` of the single point `(5.4, 5.4, 0)` leaves
the cell `(5, 5, 0)` holding `val_occ` and every other cell holding `val_free`. -/
theorem readMap_scenario :
    ∃ g', (VoxelMapUtil.initMap (10, 10, 1) (0, 0, 0) 1 0).readMap
        [⟨54 / 10, 54 / 10, 0⟩] = some g' ∧
      readCell g'.map_ (g'.getIndex (5, 5, 0)) = some val_occ ∧
      ∀ c : Veci3, g'.isOutside c = false → c ≠ (5, 5, 0) →
        readCell g'.map_ (g'.getIndex c) = some val_free := by
  have h : ((VoxelMapUtil.initMap (10, 10, 1) (0, 0, 0) 1 0).readMap
      [⟨54 / 10, 54 / 10, 0⟩]).map (fun g' => (g'.map_, g'.dim_)) =
      some ((List.replicate 100 0).set 55 100, (10, 10, 1)) := by decide!
  rw [Option.map_eq_some'] at h
  obtain ⟨g', hg', hm⟩ := h
  have hmap : g'.map_ = (List.replicate 100 0).set 55 100 := congrArg Prod.fst hm
  have hdim : g'.dim_ = (10, 10, 1) := congrArg Prod.snd hm
  have hw : writeCell (List.replicate 100 0) 55 100 = some g'.map_ := by
    rw [hmap]; rfl
  refine ⟨g', hg', ?_, ?_⟩
  · rw [readCell_writeCell _ _ _ _ _ hw]
    simp [VoxelMapUtil.getIndex, hdim]
  · rintro ⟨x, y, z⟩ hin hne
    rw [isOutside3_false] at hin
    simp only [hdim] at hin
    have hz : z = 0 := by omega
    subst hz
    have hxy : ¬ (x = 5 ∧ y = 5) := by
      rintro ⟨rfl, rfl⟩
      exact hne rfl
    rw [readCell_writeCell _ _ _ _ _ hw]
    simp only [VoxelMapUtil.getIndex, hdim]
    have hi : ¬ (x + 10 * y + 10 * 10 * 0 = 55) := by omega
    rw [if_neg hi]
    unfold readCell
    have h0 : 0 ≤ x + 10 * y + 10 * 10 * 0 := by omega
    rw [if_pos h0, List.getElem?_replicate]
    have hl : (x + 10 * y + 10 * 10 * 0).toNat < 100 := by omega
    simp only [hl, if_true, val_free]

/-- C9, evaluated at its scenario: on the fresh 10 by 10 grid with origin `(0, 0)`,
resolution 1 and inflation ratio 0, `updateCylinders` of the single datum
`(x = 5, y = 5, width = 2)` leaves the centre cell `(5, 5)` holding `val_occ`, not the marker
`val_cyl_crt`: the inflation loop overwrites the marker it has just written. -/
theorem updateCylinders_scenario_centre :
    ((OccMapUtil.initMap (10, 10) (0, 0) 1 0).updateCylinders [⟨5, 5, 2⟩]).map
        (fun g' => readCell g'.map_ (g'.getIndex (5, 5))) = some (some val_occ) ∧
      ((OccMapUtil.initMap (10, 10) (0, 0) 1 0).updateCylinders [⟨5, 5, 2⟩]).map
        (fun g' => (g'.isOccupied (5, 5), g'.isFree (5, 5))) =
          some (some true, some false) := by
  decide!

/-- C10, evaluated at a failing input: on the 10 by 10 grid whose cell `(5, 5)` holds the
marker `val_cyl_crt` (all other cells free), `updateCylinders` of the single cylinder
`(x = 6, y = 5, width = 2)` leaves the cell `(5, 5)` holding `val_occ`. -/
theorem updateCylinders_erases_marker :
    readCell (List.set (List.replicate 100 val_free) 55 val_cyl_crt) 55 = some val_cyl_crt ∧
      (OccMapUtil.updateCylinders
          { OccMapUtil.initMap (10, 10) (0, 0) 1 0 with
            map_ := List.set (List.replicate 100 val_free) 55 val_cyl_crt }
          [⟨6, 5, 2⟩]).map
        (fun g' => readCell g'.map_ (g'.getIndex (5, 5))) = some (some val_occ) := by
  decide!

end JPS

/-! ## Short rays, stale cell count, and the cell of linear index 50 -/

namespace JPS

theorem loopRange_empty (lo hi : Int) (h : hi < lo) : loopRange lo hi = [] := by
  unfold loopRange
  have : (hi + 1 - lo).toNat = 0 := by omega
  rw [this]
  rfl

theorem truncToInt_lt_two (q : ℚ) (h0 : 0 ≤ q) (h2 : q < 2) : truncToInt q ≤ 1 := by
  unfold truncToInt
  rw [if_pos h0]
  have : ⌊q⌋ < 2 := by
    rw [Int.floor_lt]
    exact_mod_cast h2
  omega

theorem kept50_of_guarded (c : Prop) [Decidable c] (m m' : Tmap) (j v : Int)
    (hj : c → j ≠ 50) (h : (if c then writeCell m j v else some m) = some m') :
    readCell m' 50 = readCell m 50 := by
  split at h
  · rename_i hc
    rw [readCell_writeCell _ _ _ _ 50 h, if_neg (fun e => hj hc e.symm)]
  · cases h
    rfl

theorem cylinderStep_kept50 (o0 o1 res infl : ℚ) (dim0 total : Int) (m m' : Tmap)
    (p : PointXYZ) (h : cylinderStep o0 o1 res infl dim0 total m p = some m') :
    readCell m' 50 = readCell m 50 := by
  simp only [cylinderStep] at h
  split at h
  · cases h
    rfl
  · rename_i hid
    simp only [Option.bind_eq_some] at h
    obtain ⟨m1, h1, h2⟩ := h
    have e1 := kept50_of_guarded _ _ _ _ _ (fun _ => hid) h1
    rw [← e1]
    unfold cylinderInflate at h2
    refine foldlM_rel _ (fun (a b : Tmap) => readCell b 50 = readCell a 50) (fun _ => rfl)
      (fun a b c hab hbc => hbc.trans hab) ?_ _ _ _ h2
    intro s ix s' hx
    refine foldlM_rel _ (fun (a b : Tmap) => readCell b 50 = readCell a 50) (fun _ => rfl)
      (fun a b c hab hbc => hbc.trans hab) ?_ _ _ _ hx
    intro s iy s' hy
    exact kept50_of_guarded _ _ _ _ _ (fun hc => hc.2.2) hy

end JPS

namespace JPS

/-- C16, the ray scenario: on the grid with dimensions `[10, 10]`, origin `[0, 0]` and
resolution 1, `rayTrace((0.5, 0.5), (9.5, 0.5))` returns the eight cells `(1, 0)` to
`(8, 0)`: a non-empty list whose `y` coordinate is always 0, whose `x` coordinates are
strictly increasing, and without a duplicate cell. -/
theorem rayTrace_scenario :
    (OccMapUtil.initMap (10, 10) (0, 0) 1 0).rayTrace (1 / 2, 1 / 2) (19 / 2, 1 / 2) =
        [(1, 0), (2, 0), (3, 0), (4, 0), (5, 0), (6, 0), (7, 0), (8, 0)] ∧
      (OccMapUtil.initMap (10, 10) (0, 0) 1 0).rayTrace (1 / 2, 1 / 2) (19 / 2, 1 / 2) ≠ [] ∧
      (∀ c ∈ (OccMapUtil.initMap (10, 10) (0, 0) 1 0).rayTrace (1 / 2, 1 / 2) (19 / 2, 1 / 2),
        c.2 = 0) ∧
      List.Pairwise (fun a b : Veci2 => a.1 < b.1)
        ((OccMapUtil.initMap (10, 10) (0, 0) 1 0).rayTrace (1 / 2, 1 / 2) (19 / 2, 1 / 2)) ∧
      List.Nodup
        ((OccMapUtil.initMap (10, 10) (0, 0) 1 0).rayTrace (1 / 2, 1 / 2) (19 / 2, 1 / 2)) := by
  have h : (OccMapUtil.initMap (10, 10) (0, 0) 1 0).rayTrace (1 / 2, 1 / 2) (19 / 2, 1 / 2) =
      [(1, 0), (2, 0), (3, 0), (4, 0), (5, 0), (6, 0), (7, 0), (8, 0)] := by decide!
  rw [h]
  decide

/-- C18, evaluated at a failing input: after `initMap` with dimensions `[10, 10]` and then
`setMap` with dimensions `[5, 5]` and 25 cells, `total_size_` is still 100 while the cell
array has 25 cells, the product of the current dimensions.  In 3-D, after `initMap`
`[4, 4, 4]` and `setMap` `[2, 2, 2]` with 8 cells, `total_size_` is 64, and `readMap` of
the point `(9.4, 0.4, 0.4)` passes the bounds test with index 9 and writes outside the
array of 8 cells, so the call has no defined result. -/
theorem setMap_leaves_total_size :
    ((OccMapUtil.initMap (10, 10) (0, 0) 1 0).setMap (0, 0) (5, 5)
        (List.replicate 25 val_free) 1).total_size_ = 100 ∧
      ((OccMapUtil.initMap (10, 10) (0, 0) 1 0).setMap (0, 0) (5, 5)
        (List.replicate 25 val_free) 1).map_.length = 25 ∧
      ((OccMapUtil.initMap (10, 10) (0, 0) 1 0).setMap (0, 0) (5, 5)
        (List.replicate 25 val_free) 1).dim_ = (5, 5) ∧
      ((VoxelMapUtil.initMap (4, 4, 4) (0, 0, 0) 1 0).setMap (0, 0, 0) (2, 2, 2)
        (List.replicate 8 val_free) 1).total_size_ = 64 ∧
      ((VoxelMapUtil.initMap (4, 4, 4) (0, 0, 0) 1 0).setMap (0, 0, 0) (2, 2, 2)
        (List.replicate 8 val_free) 1).map_.length = 8 ∧
      (((VoxelMapUtil.initMap (4, 4, 4) (0, 0, 0) 1 0).setMap (0, 0, 0) (2, 2, 2)
        (List.replicate 8 val_free) 1).readMap [⟨94 / 10, 4 / 10, 4 / 10⟩]).isNone = true := by
  decide!

/-- C19: on every 2-D grid and for every sequence of cylinders, a call of `updateCylinders`
that returns leaves the cell of linear index 50 with the value it had, and the call does
return when `total_size_` does not exceed the length of the cell array; a single cylinder
whose seed cell has the linear index 50 leaves the whole grid as it was. -/
theorem updateCylinders_keeps_index_50 (g : OccMapUtil) (cyl : List PointXYZ) (p : PointXYZ) :
    ((g.total_size_ ≤ g.map_.length → ∃ g', g.updateCylinders cyl = some g') ∧
      (∀ g', g.updateCylinders cyl = some g' → readCell g'.map_ 50 = readCell g.map_ 50)) ∧
    (g.getIndex (max (g.floatToInt (p.x, p.y)).1 0, max (g.floatToInt (p.x, p.y)).2 0) = 50 →
      g.updateCylinders [p] = some g) := by
  refine ⟨⟨?_, ?_⟩, ?_⟩
  · intro hI
    obtain ⟨m', hm', -⟩ := foldlM_defined _ (fun (m : Tmap) => g.total_size_ ≤ m.length)
      (fun s b hs => cylinderStep_defined g.origin_d_.1 g.origin_d_.2 g.res_
        g.inflated_r_ g.dim_.1 g.total_size_ s b hs) cyl g.map_ hI
    exact ⟨{ g with map_ := m' },
      by simp only [OccMapUtil.updateCylinders, hm', Option.map_some']⟩
  · intro g' hg'
    simp only [OccMapUtil.updateCylinders, Option.map_eq_some'] at hg'
    obtain ⟨m', hm', rfl⟩ := hg'
    exact foldlM_rel _ (fun (a b : Tmap) => readCell b 50 = readCell a 50) (fun _ => rfl)
      (fun a b c hab hbc => hbc.trans hab)
      (fun s b s' h => cylinderStep_kept50 _ _ _ _ _ _ s s' b h) _ _ _ hm'
  · intro h
    simp only [OccMapUtil.getIndex, OccMapUtil.floatToInt] at h
    have hstep : cylinderStep g.origin_d_.1 g.origin_d_.2 g.res_ g.inflated_r_ g.dim_.1
        g.total_size_ g.map_ p = some g.map_ := by
      simp only [cylinderStep]
      rw [if_pos h]
    simp only [OccMapUtil.updateCylinders, List.foldlM_cons, List.foldlM_nil, hstep,
      Option.bind_eq_bind, Option.some_bind, Option.pure_def, Option.map_some']

/-- Witness of C19 on the fresh 10 by 10 grid: two cylinders, and the cylinder `(0.5, 5.5)`
whose seed `(0, 5)` has the linear index 50. -/
theorem updateCylinders_keeps_index_50_witness :
    (∃ g', (OccMapUtil.initMap (10, 10) (0, 0) 1 0).updateCylinders
          [⟨5, 5, 2⟩, ⟨1, 5, 2⟩] = some g' ∧
        readCell g'.map_ 50 = readCell (OccMapUtil.initMap (10, 10) (0, 0) 1 0).map_ 50) ∧
      (OccMapUtil.initMap (10, 10) (0, 0) 1 0).updateCylinders [⟨1 / 2, 11 / 2, 2⟩] =
        some (OccMapUtil.initMap (10, 10) (0, 0) 1 0) := by
  have h := updateCylinders_keeps_index_50 (OccMapUtil.initMap (10, 10) (0, 0) 1 0)
    [⟨5, 5, 2⟩, ⟨1, 5, 2⟩] ⟨1 / 2, 11 / 2, 2⟩
  obtain ⟨a, ha⟩ := h.1.1 (by decide)
  exact ⟨⟨a, ha, h.1.2 a ha⟩, h.2 (by decide!)⟩

/-- C20, short segments are never blocked: on a grid with resolution greater than 0, when
the largest `|p2[i] - p1[i]|` divided by the resolution is below 1.6 (the two points may be
equal), `rayTrace` returns the empty list and `isBlocked` returns false, for every cell
array and every threshold (2-D and 3-D). -/
theorem short_segment_not_blocked (g2 : OccMapUtil) (p1 p2 : Vecf2) (val2 : Int)
    (g3 : VoxelMapUtil) (q1 q2 : Vecf3) (val3 : Int) (h2 : 0 < g2.res_) (h3 : 0 < g3.res_)
    (hs2 : max |p2.1 - p1.1| |p2.2 - p1.2| / g2.res_ < 8 / 5)
    (hs3 : max |q2.1 - q1.1| (max |q2.2.1 - q1.2.1| |q2.2.2 - q1.2.2|) / g3.res_ < 8 / 5) :
    (g2.rayTrace p1 p2 = [] ∧ g2.isBlocked p1 p2 val2 = some false) ∧
      (g3.rayTrace q1 q2 = [] ∧ g3.isBlocked q1 q2 val3 = some false) := by
  have e2 : g2.rayTrace p1 p2 = [] := by
    unfold OccMapUtil.rayTrace
    rw [loopRange_empty]
    · rfl
    · have hN : g2.maxDiff p1 p2 ≤ 1 := by
        unfold OccMapUtil.maxDiff
        apply truncToInt_lt_two
        · positivity
        · rw [abs_div, abs_div, abs_of_pos h2, max_div_div_right (le_of_lt h2)]
          linarith
      omega
  have e3 : g3.rayTrace q1 q2 = [] := by
    unfold VoxelMapUtil.rayTrace
    rw [loopRange_empty]
    · rfl
    · have hN : g3.maxDiff q1 q2 ≤ 1 := by
        unfold VoxelMapUtil.maxDiff
        apply truncToInt_lt_two
        · positivity
        · rw [abs_div, abs_div, abs_div, abs_of_pos h3, max_div_div_right (le_of_lt h3),
            max_div_div_right (le_of_lt h3)]
          linarith
      omega
  refine ⟨⟨e2, ?_⟩, ⟨e3, ?_⟩⟩
  · simp only [OccMapUtil.isBlocked, e2, blockedLoop]
  · simp only [VoxelMapUtil.isBlocked, e3, blockedLoop]

/-- Witness of C20 on the 10 by 10 grid (equal points, every cell occupied) and on the
4 by 4 by 4 grid (a segment of length 1.5). -/
theorem short_segment_not_blocked_witness :
    (((OccMapUtil.initMap (10, 10) (0, 0) 1 0).setMap (0, 0) (10, 10)
          (List.replicate 100 val_occ) 1).rayTrace (5 / 2, 5 / 2) (5 / 2, 5 / 2) = [] ∧
        ((OccMapUtil.initMap (10, 10) (0, 0) 1 0).setMap (0, 0) (10, 10)
          (List.replicate 100 val_occ) 1).isBlocked (5 / 2, 5 / 2) (5 / 2, 5 / 2) 100 =
            some false) ∧
      ((VoxelMapUtil.initMap (4, 4, 4) (0, 0, 0) 1 0).rayTrace (1 / 2, 1 / 2, 1 / 2)
          (2, 1 / 2, 1 / 2) = [] ∧
        (VoxelMapUtil.initMap (4, 4, 4) (0, 0, 0) 1 0).isBlocked (1 / 2, 1 / 2, 1 / 2)
          (2, 1 / 2, 1 / 2) 0 = some false) :=
  short_segment_not_blocked _ (5 / 2, 5 / 2) (5 / 2, 5 / 2) 100 _ (1 / 2, 1 / 2, 1 / 2)
    (2, 1 / 2, 1 / 2) 0 (by decide!) (by decide!) (by decide!) (by decide!)

end JPS

/-! ## Loop nests as one loop over the cells -/

namespace JPS

theorem foldlM_flatMap {σ α γ : Type} (f : σ → γ → Option σ) (L : α → List γ) (la : List α)
    (s0 : σ) :
    (la.flatMap L).foldlM f s0 = la.foldlM (fun s a => (L a).foldlM f s) s0 := by
  induction la generalizing s0 with
  | nil => rfl
  | cons a t ih =>
    simp only [List.flatMap_cons, List.foldlM_append, List.foldlM_cons]
    congr 1
    funext s
    exact ih s

theorem OccMapUtil.foldlM_cells2 {σ : Type} (g : OccMapUtil) (f : σ → Veci2 → Option σ)
    (s0 : σ) :
    (loopRange 0 (g.dim_.1 - 1)).foldlM
        (fun s n0 => (loopRange 0 (g.dim_.2 - 1)).foldlM (fun s n1 => f s (n0, n1)) s) s0 =
      g.cells.foldlM f s0 := by
  simp only [OccMapUtil.cells, foldlM_flatMap, List.foldlM_map]

theorem VoxelMapUtil.foldlM_cells3 {σ : Type} (g : VoxelMapUtil) (f : σ → Veci3 → Option σ)
    (s0 : σ) :
    (loopRange 0 (g.dim_.1 - 1)).foldlM
        (fun s n0 =>
          (loopRange 0 (g.dim_.2.1 - 1)).foldlM
            (fun s n1 => (loopRange 0 (g.dim_.2.2 - 1)).foldlM (fun s n2 => f s (n0, n1, n2)) s)
            s)
        s0 =
      g.cells.foldlM f s0 := by
  simp only [VoxelMapUtil.cells, foldlM_flatMap, List.foldlM_map]

theorem OccMapUtil.mem_cells2 (g : OccMapUtil) (n : Veci2) :
    n ∈ g.cells ↔ g.isOutside n = false := by
  rw [isOutside2_false]
  simp only [OccMapUtil.cells, List.mem_flatMap, List.mem_map, mem_loopRange]
  constructor
  · rintro ⟨a, ha, b, hb, rfl⟩
    simp only
    omega
  · intro h
    exact ⟨n.1, by omega, n.2, by omega, rfl⟩

theorem VoxelMapUtil.mem_cells3 (g : VoxelMapUtil) (n : Veci3) :
    n ∈ g.cells ↔ g.isOutside n = false := by
  rw [isOutside3_false]
  simp only [VoxelMapUtil.cells, List.mem_flatMap, List.mem_map, mem_loopRange]
  constructor
  · rintro ⟨a, ha, b, hb, c, hc, rfl⟩
    simp only
    omega
  · intro h
    exact ⟨n.1, by omega, n.2.1, by omega, n.2.2, by omega, rfl⟩

theorem loopRange_pairwise (lo hi : Int) : (loopRange lo hi).Pairwise (· < ·) := by
  unfold loopRange
  rw [List.pairwise_map]
  exact (List.pairwise_lt_range _).imp (fun h => by omega)

theorem loopRange_nodup (lo hi : Int) : (loopRange lo hi).Nodup :=
  (loopRange_pairwise lo hi).imp (fun h => ne_of_lt h)

theorem OccMapUtil.cells_nodup2 (g : OccMapUtil) : g.cells.Nodup := by
  unfold OccMapUtil.cells
  rw [List.nodup_flatMap]
  refine ⟨fun a _ => (loopRange_nodup _ _).map (fun x y h => (Prod.mk.inj h).2), ?_⟩
  refine (loopRange_nodup _ _).imp ?_
  intro a b hab
  simp only [Function.onFun, List.disjoint_left, List.mem_map]
  rintro x ⟨y, -, rfl⟩ ⟨z, -, h⟩
  exact hab (Prod.mk.inj h).1.symm

theorem VoxelMapUtil.cells_nodup3 (g : VoxelMapUtil) : g.cells.Nodup := by
  unfold VoxelMapUtil.cells
  rw [List.nodup_flatMap]
  constructor
  · intro a _
    rw [List.nodup_flatMap]
    refine ⟨fun b _ => (loopRange_nodup _ _).map (fun x y h => (Prod.mk.inj (Prod.mk.inj h).2).2),
      ?_⟩
    refine (loopRange_nodup _ _).imp ?_
    intro b c hbc
    simp only [Function.onFun, List.disjoint_left, List.mem_map]
    rintro x ⟨y, -, rfl⟩ ⟨z, -, h⟩
    exact hbc (Prod.mk.inj (Prod.mk.inj h).2).1.symm
  · refine (loopRange_nodup _ _).imp ?_
    intro a b hab
    simp only [Function.onFun, List.disjoint_left, List.mem_flatMap, List.mem_map]
    rintro x ⟨y, -, z, -, rfl⟩ ⟨y', -, z', -, h⟩
    exact hab (Prod.mk.inj h).1.symm

theorem readCell_defined (m : Tmap) (i : Int) (h0 : 0 ≤ i) (hl : i < m.length) :
    ∃ v, readCell m i = some v ∧ v ∈ m := by
  unfold readCell
  rw [if_pos h0]
  have hlt : i.toNat < m.length := by omega
  exact ⟨m[i.toNat], List.getElem?_eq_getElem hlt, List.getElem_mem hlt⟩

theorem OccMapUtil.index_lt2 (g : OccMapUtil) (n : Veci2) (h : g.isOutside n = false) :
    0 ≤ g.getIndex n ∧ g.getIndex n < g.dim_.1 * g.dim_.2 := by
  rw [isOutside2_false] at h
  exact index2_range _ _ _ _ h.1.1 h.1.2 h.2.1 h.2.2

theorem VoxelMapUtil.index_lt3 (g : VoxelMapUtil) (n : Veci3) (h : g.isOutside n = false) :
    0 ≤ g.getIndex n ∧ g.getIndex n < g.dim_.1 * g.dim_.2.1 * g.dim_.2.2 := by
  rw [isOutside3_false] at h
  exact index3_range _ _ _ _ _ _ h.1.1 h.1.2 h.2.1.1 h.2.1.2 h.2.2.1 h.2.2.2

theorem OccMapUtil.index_inj2 (g : OccMapUtil) (a b : Veci2) (ha : g.isOutside a = false)
    (hb : g.isOutside b = false) (h : g.getIndex a = g.getIndex b) : a = b := by
  rw [isOutside2_false] at ha hb
  obtain ⟨e1, e2⟩ := index2_inj _ _ _ _ _ ha.1.1 ha.1.2 hb.1.1 hb.1.2 h
  exact Prod.ext e1 e2

theorem VoxelMapUtil.index_inj3 (g : VoxelMapUtil) (a b : Veci3) (ha : g.isOutside a = false)
    (hb : g.isOutside b = false) (h : g.getIndex a = g.getIndex b) : a = b := by
  rw [isOutside3_false] at ha hb
  simp only [VoxelMapUtil.getIndex] at h
  have h' : a.1 + g.dim_.1 * (a.2.1 + g.dim_.2.1 * a.2.2) =
      b.1 + g.dim_.1 * (b.2.1 + g.dim_.2.1 * b.2.2) := by linarith
  obtain ⟨e1, e2⟩ := index2_inj _ _ _ _ _ ha.1.1 ha.1.2 hb.1.1 hb.1.2 h'
  obtain ⟨e3, e4⟩ := index2_inj _ _ _ _ _ ha.2.1.1 ha.2.1.2 hb.2.1.1 hb.2.1.2 e2
  exact Prod.ext e1 (Prod.ext e3 e4)

end JPS

/-! ## Cloud extraction -/

namespace JPS

theorem foldlM_pushIf {V P : Type} (test : V → Option Bool) (pt : V → P) (cs : List V)
    (hdef : ∀ c ∈ cs, ∃ b, test c = some b) (init : List P) :
    cs.foldlM (fun cloud c => pushIf cloud (test c) (pt c)) init =
      some (init ++ (cs.filter (fun c => decide (test c = some true))).map pt) := by
  induction cs generalizing init with
  | nil => simp
  | cons c t ih =>
    obtain ⟨b, hb⟩ := hdef c (List.mem_cons_self _ _)
    have iht := fun i => ih (fun x hx => hdef x (List.mem_cons_of_mem _ hx)) i
    cases b with
    | true =>
      have hstep : pushIf init (test c) (pt c) = some (init ++ [pt c]) := by
        simp [pushIf, hb]
      rw [List.foldlM_cons, hstep, Option.bind_eq_bind, Option.some_bind, iht]
      simp [List.filter_cons, hb]
    | false =>
      have hstep : pushIf init (test c) (pt c) = some init := by
        simp [pushIf, hb]
      rw [List.foldlM_cons, hstep, Option.bind_eq_bind, Option.some_bind, iht]
      simp [List.filter_cons, hb]

theorem OccMapUtil.scanCloud_eq2 (g : OccMapUtil) (p : Int → Bool)
    (hlen : (g.map_.length : Int) = g.dim_.1 * g.dim_.2) :
    g.scanCloud (fun i => (readCell g.map_ i).map p) =
      some ((g.cells.filter
        (fun n => decide ((if g.isOutside n then some false
          else (readCell g.map_ (g.getIndex n)).map p) = some true))).map g.intToFloat) := by
  unfold OccMapUtil.scanCloud
  rw [g.foldlM_cells2 (fun cloud n =>
    pushIf cloud ((readCell g.map_ (g.getIndex n)).map p) (g.intToFloat n)) []]
  rw [foldlM_pushIf (fun n => (readCell g.map_ (g.getIndex n)).map p) g.intToFloat]
  · simp only [List.nil_append]
    congr 2
    apply List.filter_congr
    intro n hn
    rw [(g.mem_cells2 n).1 hn]
    rfl
  · intro n hn
    obtain ⟨h0, h1⟩ := g.index_lt2 n ((g.mem_cells2 n).1 hn)
    rw [← hlen] at h1
    obtain ⟨v, hv, -⟩ := readCell_defined g.map_ _ h0 h1
    exact ⟨p v, by rw [hv]; rfl⟩

theorem VoxelMapUtil.scanCloud_eq3 (g : VoxelMapUtil) (p : Int → Bool)
    (hlen : (g.map_.length : Int) = g.dim_.1 * g.dim_.2.1 * g.dim_.2.2) :
    g.scanCloud (fun i => (readCell g.map_ i).map p) =
      some ((g.cells.filter
        (fun n => decide ((if g.isOutside n then some false
          else (readCell g.map_ (g.getIndex n)).map p) = some true))).map g.intToFloat) := by
  unfold VoxelMapUtil.scanCloud
  rw [g.foldlM_cells3 (fun cloud n =>
    pushIf cloud ((readCell g.map_ (g.getIndex n)).map p) (g.intToFloat n)) []]
  rw [foldlM_pushIf (fun n => (readCell g.map_ (g.getIndex n)).map p) g.intToFloat]
  · simp only [List.nil_append]
    congr 2
    apply List.filter_congr
    intro n hn
    rw [(g.mem_cells3 n).1 hn]
    rfl
  · intro n hn
    obtain ⟨h0, h1⟩ := g.index_lt3 n ((g.mem_cells3 n).1 hn)
    rw [← hlen] at h1
    obtain ⟨v, hv, -⟩ := readCell_defined g.map_ _ h0 h1
    exact ⟨p v, by rw [hv]; rfl⟩

end JPS

namespace JPS

/-- C14 fails as stated: on the 2 by 2 grid of resolution 1 whose four cells are occupied,
`getCloud` returns the centres in the order `(0,0), (0,1), (1,0), (1,1)` of the cells, the
linear indices 0, 2, 1, 3, and not in ascending order of the linear index. -/
theorem getCloud_not_index_order :
    ((OccMapUtil.initMap (2, 2) (0, 0) 1 0).setMap (0, 0) (2, 2) [100, 100, 100, 100]
        1).getCloud =
      some [(1 / 2, 1 / 2), (1 / 2, 3 / 2), (3 / 2, 1 / 2), (3 / 2, 3 / 2)] ∧
    ((OccMapUtil.initMap (2, 2) (0, 0) 1 0).setMap (0, 0) (2, 2) [100, 100, 100, 100]
        1).getCloud ≠
      some ((((OccMapUtil.initMap (2, 2) (0, 0) 1 0).setMap (0, 0) (2, 2)
          [100, 100, 100, 100] 1).cellsByIndex.filter
        (fun n => decide (((OccMapUtil.initMap (2, 2) (0, 0) 1 0).setMap (0, 0) (2, 2)
          [100, 100, 100, 100] 1).isOccupied n = some true))).map
        ((OccMapUtil.initMap (2, 2) (0, 0) 1 0).setMap (0, 0) (2, 2) [100, 100, 100, 100]
          1).intToFloat) := by
  decide!

/-- C14 amended: on a grid whose cell array has the product of the dimensions as length,
`getCloud` (resp. `getFreeCloud`, `getUnknownCloud`) returns exactly the list obtained by
scanning the cells in the order of the loop nest, the first axis in the outermost loop and
the last axis varying fastest, keeping the cells for which `isOccupied` (resp. `isFree`,
`isUnknown`) holds and mapping each kept cell to its centre `intToFloat`; the scan visits
every in-bounds cell, and each once (2-D and 3-D). -/
theorem clouds_in_loop_order (g2 : OccMapUtil) (g3 : VoxelMapUtil)
    (h2 : (g2.map_.length : Int) = g2.dim_.1 * g2.dim_.2)
    (h3 : (g3.map_.length : Int) = g3.dim_.1 * g3.dim_.2.1 * g3.dim_.2.2) :
    ((g2.getCloud =
          some ((g2.cells.filter (fun n => decide (g2.isOccupied n = some true))).map
            g2.intToFloat) ∧
        g2.getFreeCloud =
          some ((g2.cells.filter (fun n => decide (g2.isFree n = some true))).map
            g2.intToFloat) ∧
        g2.getUnknownCloud =
          some ((g2.cells.filter (fun n => decide (g2.isUnknown n = some true))).map
            g2.intToFloat)) ∧
      (∀ n, n ∈ g2.cells ↔ g2.isOutside n = false) ∧ g2.cells.Nodup) ∧
    ((g3.getCloud =
          some ((g3.cells.filter (fun n => decide (g3.isOccupied n = some true))).map
            g3.intToFloat) ∧
        g3.getFreeCloud =
          some ((g3.cells.filter (fun n => decide (g3.isFree n = some true))).map
            g3.intToFloat) ∧
        g3.getUnknownCloud =
          some ((g3.cells.filter (fun n => decide (g3.isUnknown n = some true))).map
            g3.intToFloat)) ∧
      (∀ n, n ∈ g3.cells ↔ g3.isOutside n = false) ∧ g3.cells.Nodup) :=
  ⟨⟨⟨g2.scanCloud_eq2 (fun v => decide (v > val_free)) h2,
        g2.scanCloud_eq2 (fun v => decide (v = val_free)) h2,
        g2.scanCloud_eq2 (fun v => decide (v = val_unknown)) h2⟩,
      g2.mem_cells2, g2.cells_nodup2⟩,
    ⟨⟨g3.scanCloud_eq3 (fun v => decide (v > val_free)) h3,
        g3.scanCloud_eq3 (fun v => decide (v = val_free)) h3,
        g3.scanCloud_eq3 (fun v => decide (v = val_unknown)) h3⟩,
      g3.mem_cells3, g3.cells_nodup3⟩⟩

/-- Witness of the amended C14 on the fresh 3 by 2 grid and the fresh 2 by 2 by 2 grid. -/
theorem clouds_in_loop_order_witness :
    (OccMapUtil.initMap (3, 2) (0, 0) 1 0).getFreeCloud =
        some (((OccMapUtil.initMap (3, 2) (0, 0) 1 0).cells.filter
          (fun n => decide ((OccMapUtil.initMap (3, 2) (0, 0) 1 0).isFree n = some true))).map
          (OccMapUtil.initMap (3, 2) (0, 0) 1 0).intToFloat) ∧
      (VoxelMapUtil.initMap (2, 2, 2) (0, 0, 0) 1 0).getCloud =
        some (((VoxelMapUtil.initMap (2, 2, 2) (0, 0, 0) 1 0).cells.filter
          (fun n => decide ((VoxelMapUtil.initMap (2, 2, 2) (0, 0, 0) 1 0).isOccupied n =
            some true))).map
          (VoxelMapUtil.initMap (2, 2, 2) (0, 0, 0) 1 0).intToFloat) := by
  have h := clouds_in_loop_order (OccMapUtil.initMap (3, 2) (0, 0) 1 0)
    (VoxelMapUtil.initMap (2, 2, 2) (0, 0, 0) 1 0) (by decide) (by decide)
  exact ⟨h.1.1.2.1, h.2.1.1⟩

end JPS

/-! ## `freeUnknown` -/

namespace JPS

/-- One pass of the body of `freeUnknown` over cells whose indices lie in the array: the pass
is defined, keeps the length, leaves no visited cell unknown and makes no cell unknown. -/
theorem freePass_spec {V : Type} (idx : V → Int) (step : Tmap → V → Option Tmap)
    (hstep : ∀ m c, step m c =
      ((readCell m (idx c)).map (fun v => decide (v = val_unknown))).bind fun u =>
        if u then writeCell m (idx c) val_free else some m)
    (N : Nat) (cs : List V) (hidx : ∀ c ∈ cs, 0 ≤ idx c ∧ idx c < N) :
    ∀ m : Tmap, m.length = N → ∃ m', cs.foldlM step m = some m' ∧ m'.length = N ∧
      (∀ j, readCell m j ≠ some val_unknown → readCell m' j ≠ some val_unknown) ∧
      (∀ c ∈ cs, readCell m' (idx c) ≠ some val_unknown) := by
  induction cs with
  | nil =>
    intro m hm
    exact ⟨m, rfl, hm, fun _ h => h, by simp⟩
  | cons c t ih =>
    intro m hm
    obtain ⟨h0, h1⟩ := hidx c (List.mem_cons_self _ _)
    have hone : ∃ m1, step m c = some m1 ∧ m1.length = N ∧
        (∀ j, readCell m j ≠ some val_unknown → readCell m1 j ≠ some val_unknown) ∧
        readCell m1 (idx c) ≠ some val_unknown := by
      obtain ⟨v, hv, -⟩ := readCell_defined m (idx c) h0 (by rw [hm]; exact h1)
      by_cases hu : v = val_unknown
      · obtain ⟨m1, hm1⟩ := writeCell_defined m (idx c) val_free h0 (by rw [hm]; exact h1)
        refine ⟨m1, ?_, ?_, ?_, ?_⟩
        · rw [hstep, hv]
          simp [hu, hm1]
        · rw [length_writeCell _ _ _ _ hm1, hm]
        · intro j hj
          rw [readCell_writeCell _ _ _ _ j hm1]
          split
          · decide
          · exact hj
        · rw [readCell_writeCell _ _ _ _ _ hm1, if_pos rfl]
          decide
      · refine ⟨m, ?_, hm, fun _ h => h, ?_⟩
        · rw [hstep, hv]
          simp [hu]
        · rw [hv]
          simpa using hu
    obtain ⟨m1, e1, l1, k1, q1⟩ := hone
    obtain ⟨m', e', l', k', q'⟩ := ih (fun x hx => hidx x (List.mem_cons_of_mem _ hx)) m1 l1
    refine ⟨m', ?_, l', fun j hj => k' j (k1 j hj), ?_⟩
    · rw [List.foldlM_cons, e1]
      exact e'
    · intro x hx
      rcases List.mem_cons.1 hx with rfl | hxt
      · exact k' _ q1
      · exact q' x hxt

/-- A pass of the body of `freeUnknown` over cells none of which is unknown changes
nothing. -/
theorem freePass_fix {V : Type} (idx : V → Int) (step : Tmap → V → Option Tmap)
    (hstep : ∀ m c, step m c =
      ((readCell m (idx c)).map (fun v => decide (v = val_unknown))).bind fun u =>
        if u then writeCell m (idx c) val_free else some m)
    (m : Tmap) (cs : List V)
    (hno : ∀ c ∈ cs, ∃ v, readCell m (idx c) = some v ∧ v ≠ val_unknown) :
    cs.foldlM step m = some m := by
  induction cs with
  | nil => rfl
  | cons c t ih =>
    obtain ⟨v, hv, hne⟩ := hno c (List.mem_cons_self _ _)
    have e1 : step m c = some m := by
      rw [hstep, hv]
      simp [hne]
    rw [List.foldlM_cons, e1]
    exact ih (fun x hx => hno x (List.mem_cons_of_mem _ hx))

theorem freePass_twice {V : Type} (idx : V → Int) (step : Tmap → V → Option Tmap)
    (hstep : ∀ m c, step m c =
      ((readCell m (idx c)).map (fun v => decide (v = val_unknown))).bind fun u =>
        if u then writeCell m (idx c) val_free else some m)
    (cs : List V) (m : Tmap) (hidx : ∀ c ∈ cs, 0 ≤ idx c ∧ idx c < m.length) :
    ∃ m', cs.foldlM step m = some m' ∧ cs.foldlM step m' = some m' := by
  obtain ⟨m', e, l, -, q⟩ := freePass_spec idx step hstep m.length cs hidx m rfl
  refine ⟨m', e, freePass_fix idx step hstep m' cs ?_⟩
  intro c hc
  obtain ⟨h0, h1⟩ := hidx c hc
  obtain ⟨v, hv, -⟩ := readCell_defined m' (idx c) h0 (by rw [l]; exact h1)
  refine ⟨v, hv, ?_⟩
  rintro rfl
  exact q c hc hv

end JPS

namespace JPS

/-- C13, idempotence of `freeUnknown`: on a grid whose cell array has the product of the
dimensions as length, `freeUnknown` returns a grid on which `freeUnknown` returns that very
grid, cell array and all other members included (2-D and 3-D). -/
theorem freeUnknown_idempotent (g2 : OccMapUtil) (g3 : VoxelMapUtil)
    (h2 : (g2.map_.length : Int) = g2.dim_.1 * g2.dim_.2)
    (h3 : (g3.map_.length : Int) = g3.dim_.1 * g3.dim_.2.1 * g3.dim_.2.2) :
    (∃ g', g2.freeUnknown = some g' ∧ g'.freeUnknown = some g') ∧
      (∃ g', g3.freeUnknown = some g' ∧ g'.freeUnknown = some g') := by
  constructor
  · obtain ⟨m', e1, e2⟩ := freePass_twice g2.getIndex g2.freeUnknownCell (fun m c => rfl)
      g2.cells g2.map_ (fun c hc => by
        have := g2.index_lt2 c ((g2.mem_cells2 c).1 hc)
        rw [← h2] at this
        exact this)
    refine ⟨{ g2 with map_ := m' }, ?_, ?_⟩
    · unfold OccMapUtil.freeUnknown
      rw [g2.foldlM_cells2 g2.freeUnknownCell, e1]
      rfl
    · unfold OccMapUtil.freeUnknown
      rw [OccMapUtil.foldlM_cells2 { g2 with map_ := m' }
        (OccMapUtil.freeUnknownCell { g2 with map_ := m' })]
      exact congrArg (Option.map _) e2
  · obtain ⟨m', e1, e2⟩ := freePass_twice g3.getIndex g3.freeUnknownCell (fun m c => rfl)
      g3.cells g3.map_ (fun c hc => by
        have := g3.index_lt3 c ((g3.mem_cells3 c).1 hc)
        rw [← h3] at this
        exact this)
    refine ⟨{ g3 with map_ := m' }, ?_, ?_⟩
    · unfold VoxelMapUtil.freeUnknown
      rw [g3.foldlM_cells3 g3.freeUnknownCell, e1]
      rfl
    · unfold VoxelMapUtil.freeUnknown
      rw [VoxelMapUtil.foldlM_cells3 { g3 with map_ := m' }
        (VoxelMapUtil.freeUnknownCell { g3 with map_ := m' })]
      exact congrArg (Option.map _) e2

/-- Witness of C13 on a 2 by 2 grid and a 2 by 2 by 2 grid holding unknown cells. -/
theorem freeUnknown_idempotent_witness :
    (∃ g', ((OccMapUtil.initMap (2, 2) (0, 0) 1 0).setMap (0, 0) (2, 2) [100, -1, -1, 3]
          1).freeUnknown = some g' ∧ g'.freeUnknown = some g') ∧
      (∃ g', ((VoxelMapUtil.initMap (2, 2, 2) (0, 0, 0) 1 0).setMap (0, 0, 0) (2, 2, 2)
          [100, -1, -1, 3, 0, 0, 1, -1] 1).freeUnknown = some g' ∧
        g'.freeUnknown = some g') :=
  freeUnknown_idempotent
    ((OccMapUtil.initMap (2, 2) (0, 0) 1 0).setMap (0, 0) (2, 2) [100, -1, -1, 3] 1)
    ((VoxelMapUtil.initMap (2, 2, 2) (0, 0, 0) 1 0).setMap (0, 0, 0) (2, 2, 2)
      [100, -1, -1, 3, 0, 0, 1, -1] 1) (by decide) (by decide)

end JPS

/-! ## `dilate` -/

namespace JPS

theorem WritesOcc.none (s : Tmap) : WritesOcc (fun _ => False) s s :=
  ⟨rfl, fun _ => ⟨fun h => h.elim, fun _ => rfl⟩⟩

theorem WritesOcc.compose (W1 W2 : Int → Prop) (a b c : Tmap) (h1 : WritesOcc W1 a b)
    (h2 : WritesOcc W2 b c) : WritesOcc (fun j => W1 j ∨ W2 j) a c := by
  refine ⟨h2.1.trans h1.1, fun j => ⟨?_, ?_⟩⟩
  · intro h
    by_cases h2j : W2 j
    · exact (h2.2 j).1 h2j
    · rw [(h2.2 j).2 h2j]
      rcases h with h | h
      · exact (h1.2 j).1 h
      · exact absurd h h2j
  · intro h
    rw [(h2.2 j).2 (fun h' => h (Or.inr h')), (h1.2 j).2 (fun h' => h (Or.inl h'))]

theorem WritesOcc.congr {W W' : Int → Prop} {a b : Tmap} (hW : ∀ j, W j ↔ W' j)
    (h : WritesOcc W a b) : WritesOcc W' a b :=
  ⟨h.1, fun j => ⟨fun hj => (h.2 j).1 ((hW j).2 hj), fun hj => (h.2 j).2 (fun h' => hj ((hW j).1 h'))⟩⟩

/-- A loop whose iteration `b` writes `val_occ` at the indices `Wb b` writes `val_occ` at
the indices of all its iterations. -/
theorem foldlM_writes {α : Type} (f : Tmap → α → Option Tmap) (N : Int) (Wb : α → Int → Prop)
    (l : List α)
    (hstep : ∀ s b, b ∈ l → N ≤ s.length → ∃ s', f s b = some s' ∧ WritesOcc (Wb b) s s') :
    ∀ s : Tmap, N ≤ s.length →
      ∃ s', l.foldlM f s = some s' ∧ WritesOcc (fun j => ∃ b ∈ l, Wb b j) s s' := by
  induction l with
  | nil =>
    intro s _
    exact ⟨s, rfl, (WritesOcc.none s).congr (fun j => by simp)⟩
  | cons b t ih =>
    intro s hs
    obtain ⟨s1, e1, w1⟩ := hstep s b (List.mem_cons_self _ _) hs
    have hs1 : N ≤ s1.length := by rw [w1.1]; exact hs
    obtain ⟨s2, e2, w2⟩ := ih (fun s x hx => hstep s x (List.mem_cons_of_mem _ hx)) s1 hs1
    refine ⟨s2, ?_, (WritesOcc.compose _ _ _ _ _ w1 w2).congr (fun j => ?_)⟩
    · rw [List.foldlM_cons, e1]
      exact e2
    · simp only [List.mem_cons, exists_eq_or_imp]

/-- The loops of `dilate` over in-bounds cells `cs`: with `old` the member `map_` and `map` the
copy, the pass is defined and writes `val_occ` exactly at the indices of the cells `n + it`
that are not outside, for `n` in `cs` occupied in `old` and `it` an offset. -/
theorem dilatePass_spec {V : Type} [Add V] (outside : V → Bool) (idx : V → Int) (old : Tmap)
    (N : Int) (hidx : ∀ c, outside c = false → 0 ≤ idx c ∧ idx c < N)
    (hold : N ≤ old.length) (offs : List V) (cellStep : Tmap → V → Option Tmap)
    (hcell : ∀ map n, cellStep map n =
      ((readCell old (idx n)).map (fun v => decide (v > val_free))).bind fun occ =>
        if occ then
          offs.foldlM
            (fun map it =>
              if outside (n + it) = false then writeCell map (idx (n + it)) val_occ
              else some map)
            map
        else some map)
    (cs : List V) (hcs : ∀ c ∈ cs, outside c = false) (map : Tmap) (hmap : N ≤ map.length) :
    ∃ map', cs.foldlM cellStep map = some map' ∧
      WritesOcc
        (fun j => ∃ n ∈ cs, (∃ v, readCell old (idx n) = some v ∧ v > val_free) ∧
          ∃ it ∈ offs, outside (n + it) = false ∧ j = idx (n + it))
        map map' := by
  refine foldlM_writes cellStep N
    (fun n j => (∃ v, readCell old (idx n) = some v ∧ v > val_free) ∧
      ∃ it ∈ offs, outside (n + it) = false ∧ j = idx (n + it)) cs ?_ map hmap
  intro s n hn hs
  obtain ⟨h0, h1⟩ := hidx n (hcs n hn)
  obtain ⟨v, hv, -⟩ := readCell_defined old (idx n) h0 (lt_of_lt_of_le h1 hold)
  by_cases hocc : v > val_free
  · obtain ⟨s', e, w⟩ := foldlM_writes
      (fun map it =>
        if outside (n + it) = false then writeCell map (idx (n + it)) val_occ else some map)
      N (fun it j => outside (n + it) = false ∧ j = idx (n + it)) offs
      (fun s it _ hs => by
        by_cases ho : outside (n + it) = false
        · obtain ⟨i0, i1⟩ := hidx (n + it) ho
          obtain ⟨s', hs'⟩ := writeCell_defined s (idx (n + it)) val_occ i0
            (lt_of_lt_of_le i1 hs)
          refine ⟨s', by beta_reduce; rw [if_pos ho]; exact hs', length_writeCell _ _ _ _ hs', fun j => ?_⟩
          rw [readCell_writeCell _ _ _ _ j hs']
          constructor
          · rintro ⟨-, rfl⟩
            rw [if_pos rfl]
          · intro hj
            rw [if_neg (fun e => hj ⟨ho, e⟩)]
        · exact ⟨s, by beta_reduce; rw [if_neg ho], (WritesOcc.none s).congr
            (fun j => ⟨fun h => h.elim, fun h => ho h.1⟩)⟩)
      s hs
    refine ⟨s', ?_, w.congr (fun j => ?_)⟩
    · rw [hcell, hv]
      simp only [Option.map_some', Option.some_bind, decide_eq_true hocc, if_true]
      exact e
    · constructor
      · rintro ⟨it, hit, h⟩
        exact ⟨⟨v, hv, hocc⟩, it, hit, h⟩
      · rintro ⟨-, it, hit, h⟩
        exact ⟨it, hit, h⟩
  · refine ⟨s, ?_, (WritesOcc.none s).congr (fun j => ⟨fun h => h.elim, ?_⟩)⟩
    · rw [hcell, hv]
      simp only [Option.map_some', Option.some_bind, decide_eq_false hocc]
      rfl
    · rintro ⟨⟨v', hv', hpos⟩, -⟩
      rw [hv] at hv'
      cases hv'
      exact hocc hpos

/-- The loops of `dilate`, whenever they are defined, leave every cell of the copy with its
value or with `val_occ`. -/
theorem dilatePass_raised {V : Type} [Add V] (outside : V → Bool) (idx : V → Int) (old : Tmap)
    (offs : List V) (cellStep : Tmap → V → Option Tmap)
    (hcell : ∀ map n, cellStep map n =
      ((readCell old (idx n)).map (fun v => decide (v > val_free))).bind fun occ =>
        if occ then
          offs.foldlM
            (fun map it =>
              if outside (n + it) = false then writeCell map (idx (n + it)) val_occ
              else some map)
            map
        else some map)
    (cs : List V) (map map' : Tmap) (h : cs.foldlM cellStep map = some map') :
    RaisedFrom map map' := by
  refine foldlM_rel _ RaisedFrom RaisedFrom.refl RaisedFrom.trans ?_ _ _ _ h
  intro s n s' hs
  rw [hcell] at hs
  simp only [Option.bind_eq_some] at hs
  obtain ⟨occ, -, h2⟩ := hs
  split at h2
  · refine foldlM_rel _ RaisedFrom RaisedFrom.refl RaisedFrom.trans ?_ _ _ _ h2
    intro a it b hab
    exact RaisedFrom.of_guarded _ _ _ _ _ (Or.inl rfl) hab
  · cases h2
    exact RaisedFrom.refl _

end JPS

namespace JPS

theorem OccMapUtil.isOccupied_true_iff2 (g : OccMapUtil) (n : Veci2) :
    g.isOccupied n = some true ↔
      g.isOutside n = false ∧ ∃ v, readCell g.map_ (g.getIndex n) = some v ∧ v > val_free := by
  unfold OccMapUtil.isOccupied OccMapUtil.isOccupied_idx
  cases ho : g.isOutside n
  · cases hr : readCell g.map_ (g.getIndex n) <;> simp
  · simp

theorem VoxelMapUtil.isOccupied_true_iff3 (g : VoxelMapUtil) (n : Veci3) :
    g.isOccupied n = some true ↔
      g.isOutside n = false ∧ ∃ v, readCell g.map_ (g.getIndex n) = some v ∧ v > val_free := by
  unfold VoxelMapUtil.isOccupied VoxelMapUtil.isOccupied_idx
  cases ho : g.isOutside n
  · cases hr : readCell g.map_ (g.getIndex n) <;> simp
  · simp

theorem OccMapUtil.dilate_spec2 (g : OccMapUtil) (offs : List Veci2)
    (hlen : (g.map_.length : Int) = g.dim_.1 * g.dim_.2) :
    ∃ g', g.dilate offs = some g' ∧ g'.dim_ = g.dim_ ∧ ∀ c, g.isOutside c = false →
      ((∃ n o, g.isOccupied n = some true ∧ o ∈ offs ∧ n + o = c) →
        readCell g'.map_ (g'.getIndex c) = some val_occ) ∧
      (¬ (∃ n o, g.isOccupied n = some true ∧ o ∈ offs ∧ n + o = c) →
        readCell g'.map_ (g'.getIndex c) = readCell g.map_ (g.getIndex c)) := by
  obtain ⟨m', e, w⟩ := dilatePass_spec g.isOutside g.getIndex g.map_ (g.dim_.1 * g.dim_.2)
    g.index_lt2 (le_of_eq hlen.symm) offs (g.dilateCell offs) (fun _ _ => rfl) g.cells
    (fun c hc => (g.mem_cells2 c).1 hc) g.map_ (le_of_eq hlen.symm)
  refine ⟨{ g with map_ := m' }, ?_, rfl, ?_⟩
  · unfold OccMapUtil.dilate
    rw [g.foldlM_cells2 (g.dilateCell offs), e]
    rfl
  · intro c hc
    have hiff : (∃ n ∈ g.cells, (∃ v, readCell g.map_ (g.getIndex n) = some v ∧ v > val_free) ∧
          ∃ it ∈ offs, g.isOutside (n + it) = false ∧ g.getIndex c = g.getIndex (n + it)) ↔
        ∃ n o, g.isOccupied n = some true ∧ o ∈ offs ∧ n + o = c := by
      constructor
      · rintro ⟨n, hn, hv, it, hit, hout, hidx⟩
        exact ⟨n, it, (g.isOccupied_true_iff2 n).2 ⟨(g.mem_cells2 n).1 hn, hv⟩, hit,
          (g.index_inj2 c (n + it) hc hout hidx).symm⟩
      · rintro ⟨n, o, hocc, ho, rfl⟩
        obtain ⟨hin, hv⟩ := (g.isOccupied_true_iff2 n).1 hocc
        exact ⟨n, (g.mem_cells2 n).2 hin, hv, o, ho, hc, rfl⟩
    constructor
    · intro h
      exact (w.2 (g.getIndex c)).1 (hiff.2 h)
    · intro h
      exact (w.2 (g.getIndex c)).2 (fun h' => h (hiff.1 h'))

theorem VoxelMapUtil.dilate_spec3 (g : VoxelMapUtil) (offs : List Veci3)
    (hlen : (g.map_.length : Int) = g.dim_.1 * g.dim_.2.1 * g.dim_.2.2) :
    ∃ g', g.dilate offs = some g' ∧ g'.dim_ = g.dim_ ∧ ∀ c, g.isOutside c = false →
      ((∃ n o, g.isOccupied n = some true ∧ o ∈ offs ∧ n + o = c) →
        readCell g'.map_ (g'.getIndex c) = some val_occ) ∧
      (¬ (∃ n o, g.isOccupied n = some true ∧ o ∈ offs ∧ n + o = c) →
        readCell g'.map_ (g'.getIndex c) = readCell g.map_ (g.getIndex c)) := by
  obtain ⟨m', e, w⟩ := dilatePass_spec g.isOutside g.getIndex g.map_
    (g.dim_.1 * g.dim_.2.1 * g.dim_.2.2)
    g.index_lt3 (le_of_eq hlen.symm) offs (g.dilateCell offs) (fun _ _ => rfl) g.cells
    (fun c hc => (g.mem_cells3 c).1 hc) g.map_ (le_of_eq hlen.symm)
  refine ⟨{ g with map_ := m' }, ?_, rfl, ?_⟩
  · unfold VoxelMapUtil.dilate
    rw [g.foldlM_cells3 (g.dilateCell offs), e]
    rfl
  · intro c hc
    have hiff : (∃ n ∈ g.cells, (∃ v, readCell g.map_ (g.getIndex n) = some v ∧ v > val_free) ∧
          ∃ it ∈ offs, g.isOutside (n + it) = false ∧ g.getIndex c = g.getIndex (n + it)) ↔
        ∃ n o, g.isOccupied n = some true ∧ o ∈ offs ∧ n + o = c := by
      constructor
      · rintro ⟨n, hn, hv, it, hit, hout, hidx⟩
        exact ⟨n, it, (g.isOccupied_true_iff3 n).2 ⟨(g.mem_cells3 n).1 hn, hv⟩, hit,
          (g.index_inj3 c (n + it) hc hout hidx).symm⟩
      · rintro ⟨n, o, hocc, ho, rfl⟩
        obtain ⟨hin, hv⟩ := (g.isOccupied_true_iff3 n).1 hocc
        exact ⟨n, (g.mem_cells3 n).2 hin, hv, o, ho, hc, rfl⟩
    constructor
    · intro h
      exact (w.2 (g.getIndex c)).1 (hiff.2 h)
    · intro h
      exact (w.2 (g.getIndex c)).2 (fun h' => h (hiff.1 h'))

theorem OccMapUtil.dilate_raised2 (g g' : OccMapUtil) (offs : List Veci2)
    (h : g.dilate offs = some g') : g'.dim_ = g.dim_ ∧ RaisedFrom g.map_ g'.map_ := by
  unfold OccMapUtil.dilate at h
  rw [g.foldlM_cells2 (g.dilateCell offs), Option.map_eq_some'] at h
  obtain ⟨m', hm', rfl⟩ := h
  exact ⟨rfl, dilatePass_raised g.isOutside g.getIndex g.map_ offs (g.dilateCell offs)
    (fun _ _ => rfl) g.cells g.map_ m' hm'⟩

theorem VoxelMapUtil.dilate_raised3 (g g' : VoxelMapUtil) (offs : List Veci3)
    (h : g.dilate offs = some g') : g'.dim_ = g.dim_ ∧ RaisedFrom g.map_ g'.map_ := by
  unfold VoxelMapUtil.dilate at h
  rw [g.foldlM_cells3 (g.dilateCell offs), Option.map_eq_some'] at h
  obtain ⟨m', hm', rfl⟩ := h
  exact ⟨rfl, dilatePass_raised g.isOutside g.getIndex g.map_ offs (g.dilateCell offs)
    (fun _ _ => rfl) g.cells g.map_ m' hm'⟩

theorem raised_pos (m m' : Tmap) (h : RaisedFrom m m') (i v : Int) (hv : readCell m i = some v)
    (hpos : v > val_free) : ∃ v', readCell m' i = some v' ∧ v' > val_free := by
  rcases h i with e | e | e
  · exact ⟨v, by rw [e, hv], hpos⟩
  · exact ⟨val_occ, e, by decide⟩
  · exact ⟨val_cyl_crt, e, by decide⟩

end JPS

namespace JPS

/-- C11, dilation reads a snapshot and does not cascade: on a grid whose cell array has the
product of the dimensions as length, `dilate` returns a grid in which an in-bounds cell `c`
holds `val_occ` when `c = n + o` for a cell `n` occupied before the call and an offset `o` of
the list, and holds its value from before the call otherwise (2-D and 3-D).  With the five
offsets of the plus shape and a 2-D grid whose only occupied cell `(x, y)` is not on the
boundary, the occupied cells after the call are exactly the five cells of the plus around
`(x, y)`, and they hold `val_occ`. -/
theorem dilate_snapshot (g2 : OccMapUtil) (offs2 : List Veci2) (g3 : VoxelMapUtil)
    (offs3 : List Veci3) (x y : Int)
    (h2 : (g2.map_.length : Int) = g2.dim_.1 * g2.dim_.2)
    (h3 : (g3.map_.length : Int) = g3.dim_.1 * g3.dim_.2.1 * g3.dim_.2.2) :
    (∃ g', g2.dilate offs2 = some g' ∧ ∀ c, g2.isOutside c = false →
      ((∃ n o, g2.isOccupied n = some true ∧ o ∈ offs2 ∧ n + o = c) →
        readCell g'.map_ (g'.getIndex c) = some val_occ) ∧
      (¬ (∃ n o, g2.isOccupied n = some true ∧ o ∈ offs2 ∧ n + o = c) →
        readCell g'.map_ (g'.getIndex c) = readCell g2.map_ (g2.getIndex c))) ∧
    (∃ g', g3.dilate offs3 = some g' ∧ ∀ c, g3.isOutside c = false →
      ((∃ n o, g3.isOccupied n = some true ∧ o ∈ offs3 ∧ n + o = c) →
        readCell g'.map_ (g'.getIndex c) = some val_occ) ∧
      (¬ (∃ n o, g3.isOccupied n = some true ∧ o ∈ offs3 ∧ n + o = c) →
        readCell g'.map_ (g'.getIndex c) = readCell g3.map_ (g3.getIndex c))) ∧
    (0 < x ∧ x + 1 < g2.dim_.1 → 0 < y ∧ y + 1 < g2.dim_.2 →
      (∀ n, g2.isOccupied n = some true ↔ n = (x, y)) →
      ∃ g', g2.dilate [(0, 0), (1, 0), (-1, 0), (0, 1), (0, -1)] = some g' ∧
        (∀ c, g'.isOccupied c = some true ↔
          c ∈ [(x, y), (x + 1, y), (x - 1, y), (x, y + 1), (x, y - 1)]) ∧
        (∀ c ∈ [(x, y), (x + 1, y), (x - 1, y), (x, y + 1), (x, y - 1)],
          readCell g'.map_ (g'.getIndex c) = some val_occ) ∧
        [(x, y), (x + 1, y), (x - 1, y), (x, y + 1), (x, y - 1)].Nodup) := by
  refine ⟨?_, ?_, ?_⟩
  · obtain ⟨g', e, -, hc⟩ := g2.dilate_spec2 offs2 h2
    exact ⟨g', e, hc⟩
  · obtain ⟨g', e, -, hc⟩ := g3.dilate_spec3 offs3 h3
    exact ⟨g', e, hc⟩
  · intro hx hy hone
    obtain ⟨g', e, hdim, hc⟩ := g2.dilate_spec2 [(0, 0), (1, 0), (-1, 0), (0, 1), (0, -1)] h2
    have hplus : ∀ c : Veci2,
        (∃ n o, g2.isOccupied n = some true ∧
          o ∈ [((0 : Int), (0 : Int)), (1, 0), (-1, 0), (0, 1), (0, -1)] ∧ n + o = c) ↔
        c ∈ [(x, y), (x + 1, y), (x - 1, y), (x, y + 1), (x, y - 1)] := by
      intro c
      constructor
      · rintro ⟨n, o, hn, ho, rfl⟩
        rw [(hone n).1 hn]
        simp only [List.mem_cons, List.mem_singleton, List.not_mem_nil, or_false] at ho
        rcases ho with rfl | rfl | rfl | rfl | rfl <;> simp [sub_eq_add_neg]
      · intro hcm
        simp only [List.mem_cons, List.mem_singleton, List.not_mem_nil, or_false] at hcm
        refine ⟨(x, y), ?_⟩
        rcases hcm with rfl | rfl | rfl | rfl | rfl
        · exact ⟨(0, 0), (hone _).2 rfl, by simp, by simp⟩
        · exact ⟨(1, 0), (hone _).2 rfl, by simp, by simp⟩
        · exact ⟨(-1, 0), (hone _).2 rfl, by simp, by simp [sub_eq_add_neg]⟩
        · exact ⟨(0, 1), (hone _).2 rfl, by simp, by simp⟩
        · exact ⟨(0, -1), (hone _).2 rfl, by simp, by simp [sub_eq_add_neg]⟩
    have hin : ∀ c ∈ [(x, y), (x + 1, y), (x - 1, y), (x, y + 1), (x, y - 1)],
        g2.isOutside c = false := by
      intro c hcm
      rw [isOutside2_false]
      simp only [List.mem_cons, List.mem_singleton, List.not_mem_nil, or_false] at hcm
      rcases hcm with rfl | rfl | rfl | rfl | rfl <;> simp only <;> omega
    have hout : ∀ c, g'.isOutside c = g2.isOutside c := by
      intro c
      simp only [OccMapUtil.isOutside, hdim]
    have hidx : ∀ c, g'.getIndex c = g2.getIndex c := by
      intro c
      simp only [OccMapUtil.getIndex, hdim]
    refine ⟨g', e, ?_, ?_, ?_⟩
    · intro c
      rw [g'.isOccupied_true_iff2, hout]
      constructor
      · rintro ⟨hco, v, hv, hpos⟩
        by_contra hnot
        have hkeep := (hc c hco).2 (fun h => hnot ((hplus c).1 h))
        rw [hkeep] at hv
        have hocc : g2.isOccupied c = some true :=
          (g2.isOccupied_true_iff2 c).2 ⟨hco, v, hv, hpos⟩
        rw [(hone c).1 hocc] at hnot
        exact hnot (by simp)
      · intro hcm
        have hco := hin c hcm
        exact ⟨hco, val_occ, (hc c hco).1 ((hplus c).2 hcm), by decide⟩
    · intro c hcm
      exact (hc c (hin c hcm)).1 ((hplus c).2 hcm)
    · simp only [List.nodup_cons, List.mem_cons, List.mem_singleton, Prod.mk.injEq,
        List.not_mem_nil, List.nodup_nil, and_true, true_and, or_false, not_false_eq_true]
      omega

/-- Witness of C11: the 5 by 5 grid whose only occupied cell is `(2, 2)`, dilated by the
five offsets of the plus shape. -/
theorem dilate_snapshot_witness :
    ∃ g', ((OccMapUtil.initMap (5, 5) (0, 0) 1 0).setMap (0, 0) (5, 5)
          ((List.replicate 25 val_free).set 12 val_occ) 1).dilate
        [(0, 0), (1, 0), (-1, 0), (0, 1), (0, -1)] = some g' ∧
      (∀ c, g'.isOccupied c = some true ↔ c ∈ [(2, 2), (2 + 1, 2), (2 - 1, 2), (2, 2 + 1),
        (2, 2 - 1)]) ∧
      (∀ c ∈ [((2 : Int), (2 : Int)), (2 + 1, 2), (2 - 1, 2), (2, 2 + 1), (2, 2 - 1)],
        readCell g'.map_ (g'.getIndex c) = some val_occ) ∧
      [((2 : Int), (2 : Int)), (2 + 1, 2), (2 - 1, 2), (2, 2 + 1), (2, 2 - 1)].Nodup :=
  (dilate_snapshot
    ((OccMapUtil.initMap (5, 5) (0, 0) 1 0).setMap (0, 0) (5, 5)
      ((List.replicate 25 val_free).set 12 val_occ) 1)
    [] (VoxelMapUtil.initMap (2, 2, 2) (0, 0, 0) 1 0) [] 2 2 (by decide) (by decide)).2.2
    (by decide) (by decide)
    (by
      intro n
      rw [OccMapUtil.isOccupied_true_iff2, isOutside2_false]
      obtain ⟨a, b⟩ := n
      simp only [OccMapUtil.setMap, OccMapUtil.initMap, OccMapUtil.getIndex, Prod.mk.injEq]
      constructor
      · rintro ⟨⟨⟨a0, a1⟩, b0, b1⟩, v, hv, hpos⟩
        have hw : writeCell (List.replicate 25 val_free) 12 val_occ =
            some ((List.replicate 25 val_free).set 12 val_occ) := rfl
        rw [readCell_writeCell _ _ _ _ _ hw] at hv
        by_cases h12 : a + 5 * b = 12
        · omega
        · rw [if_neg h12] at hv
          obtain hm := readCell_mem _ _ _ hv
          rw [List.mem_replicate] at hm
          rw [hm.2] at hpos
          exact absurd hpos (by decide)
      · rintro ⟨rfl, rfl⟩
        exact ⟨by omega, val_occ, by decide, by decide⟩)

/-- C12, dilation superset: whenever `dilate` returns, for any grid and any list of offsets
(with or without the zero offset), every cell occupied before the call is occupied after it;
`dilate` does return on every grid whose cell array has the product of the dimensions as
length (2-D and 3-D). -/
theorem dilate_superset (g2 : OccMapUtil) (offs2 : List Veci2) (g3 : VoxelMapUtil)
    (offs3 : List Veci3) :
    ((((g2.map_.length : Int) = g2.dim_.1 * g2.dim_.2) → ∃ g', g2.dilate offs2 = some g') ∧
      ∀ g', g2.dilate offs2 = some g' → ∀ c, g2.isOccupied c = some true →
        g'.isOccupied c = some true) ∧
    ((((g3.map_.length : Int) = g3.dim_.1 * g3.dim_.2.1 * g3.dim_.2.2) →
        ∃ g', g3.dilate offs3 = some g') ∧
      ∀ g', g3.dilate offs3 = some g' → ∀ c, g3.isOccupied c = some true →
        g'.isOccupied c = some true) := by
  refine ⟨⟨?_, ?_⟩, ⟨?_, ?_⟩⟩
  · intro h
    obtain ⟨g', e, -⟩ := g2.dilate_spec2 offs2 h
    exact ⟨g', e⟩
  · intro g' hg' c hc
    obtain ⟨hdim, hr⟩ := g2.dilate_raised2 g' offs2 hg'
    obtain ⟨hco, v, hv, hpos⟩ := (g2.isOccupied_true_iff2 c).1 hc
    rw [g'.isOccupied_true_iff2]
    have hout : g'.isOutside c = g2.isOutside c := by simp only [OccMapUtil.isOutside, hdim]
    have hidx : g'.getIndex c = g2.getIndex c := by simp only [OccMapUtil.getIndex, hdim]
    rw [hout, hidx]
    exact ⟨hco, raised_pos _ _ hr _ v hv hpos⟩
  · intro h
    obtain ⟨g', e, -⟩ := g3.dilate_spec3 offs3 h
    exact ⟨g', e⟩
  · intro g' hg' c hc
    obtain ⟨hdim, hr⟩ := g3.dilate_raised3 g' offs3 hg'
    obtain ⟨hco, v, hv, hpos⟩ := (g3.isOccupied_true_iff3 c).1 hc
    rw [g'.isOccupied_true_iff3]
    have hout : g'.isOutside c = g3.isOutside c := by simp only [VoxelMapUtil.isOutside, hdim]
    have hidx : g'.getIndex c = g3.getIndex c := by simp only [VoxelMapUtil.getIndex, hdim]
    rw [hout, hidx]
    exact ⟨hco, raised_pos _ _ hr _ v hv hpos⟩

/-- Witness of C12: on a 3 by 3 grid and a 2 by 2 by 2 grid with one occupied cell each,
`dilate` by the zero offset and one neighbour returns and the occupied cell stays
occupied. -/
theorem dilate_superset_witness :
    (∃ g', ((OccMapUtil.initMap (3, 3) (0, 0) 1 0).setMap (0, 0) (3, 3)
          [0, 0, 0, 0, 100, 0, 0, 0, 0] 1).dilate [(0, 0), (1, 0)] = some g' ∧
        g'.isOccupied (1, 1) = some true) ∧
      (∃ g', ((VoxelMapUtil.initMap (2, 2, 2) (0, 0, 0) 1 0).setMap (0, 0, 0) (2, 2, 2)
          [0, 0, 0, 7, 0, 0, 0, 0] 1).dilate [(0, 0, 0), (0, 0, 1)] = some g' ∧
        g'.isOccupied (1, 1, 0) = some true) := by
  have h := dilate_superset
    ((OccMapUtil.initMap (3, 3) (0, 0) 1 0).setMap (0, 0) (3, 3)
      [0, 0, 0, 0, 100, 0, 0, 0, 0] 1) [(0, 0), (1, 0)]
    ((VoxelMapUtil.initMap (2, 2, 2) (0, 0, 0) 1 0).setMap (0, 0, 0) (2, 2, 2)
      [0, 0, 0, 7, 0, 0, 0, 0] 1) [(0, 0, 0), (0, 0, 1)]
  obtain ⟨a, ha⟩ := h.1.1 (by decide)
  obtain ⟨b, hb⟩ := h.2.1 (by decide)
  exact ⟨⟨a, ha, h.1.2 a ha (1, 1) (by decide)⟩, ⟨b, hb, h.2.2 b hb (1, 1, 0) (by decide)⟩⟩

end JPS

/-! ## The loop of `rayTrace` -/

namespace JPS

theorem rayLoop_inside {V : Type} [DecidableEq V] (cell : Int → V) (outside : V → Bool) :
    ∀ (ns : List Int) (prev : V) (pns : List V), (∀ c ∈ pns, outside c = false) →
      ∀ c ∈ rayLoop cell outside ns prev pns, outside c = false := by
  intro ns
  induction ns with
  | nil =>
    intro prev pns h c hc
    exact h c hc
  | cons n t ih =>
    intro prev pns h c hc
    unfold rayLoop at hc
    split at hc
    · exact h c hc
    · rename_i hout
      refine ih (cell n) _ ?_ c hc
      intro q hq
      split at hq
      · rcases List.mem_append.1 hq with hq | hq
        · exact h q hq
        · rw [List.mem_singleton.1 hq]
          simpa using hout
      · exact h q hq

/-- When the cells of the samples never come back to a cell they have left, the list built
by the loop of `rayTrace` has no duplicate. -/
theorem rayLoop_nodup {V : Type} [DecidableEq V] (cell : Int → V) (outside : V → Bool)
    (hbet : ∀ a c b : Int, a ≤ c → c ≤ b → cell a = cell b → cell c = cell a) :
    ∀ (ns : List Int) (prev : V) (pns : List V), ns.Pairwise (· < ·) → pns.Nodup →
      (∀ q ∈ pns, q ≠ prev → ∀ n ∈ ns, cell n ≠ q) →
      (prev ∈ pns → ∃ n0, prev = cell n0 ∧ ∀ n ∈ ns, n0 < n) →
      (rayLoop cell outside ns prev pns).Nodup := by
  intro ns
  induction ns with
  | nil =>
    intro prev pns _ hnd _ _
    exact hnd
  | cons n t ih =>
    intro prev pns hsorted hnd hold hprev
    unfold rayLoop
    split
    · exact hnd
    · have hlt : ∀ n' ∈ t, n < n' := (List.pairwise_cons.1 hsorted).1
      have hnotin : cell n ≠ prev → cell n ∉ pns := by
        intro hne hmem
        by_cases hq : cell n = prev
        · exact hne hq
        · exact hold (cell n) hmem hq n (List.mem_cons_self _ _) rfl
      refine ih (cell n) _ (List.pairwise_cons.1 hsorted).2 ?_ ?_ ?_
      · split
        · rename_i hne
          rw [List.nodup_append]
          refine ⟨hnd, List.nodup_singleton _, ?_⟩
          intro q hq hq'
          rw [List.mem_singleton.1 hq'] at hq
          exact hnotin hne hq
        · exact hnd
      · intro q hq hqne n' hn' hcell
        have hqp : q ∈ pns := by
          split at hq
          · rcases List.mem_append.1 hq with h | h
            · exact h
            · exact absurd (List.mem_singleton.1 h) hqne
          · exact hq
        by_cases hqprev : q = prev
        · subst hqprev
          obtain ⟨n0, hn0, hn0lt⟩ := hprev hqp
          have h1 : cell n = cell n0 :=
            hbet n0 n n' (le_of_lt (hn0lt n (List.mem_cons_self _ _))) (le_of_lt (hlt n' hn'))
              (by rw [← hn0, hcell])
          exact hqne (by rw [hn0, h1])
        · exact hold q hqp hqprev n' (List.mem_cons_of_mem _ hn') hcell
      · intro _
        exact ⟨n, rfl, hlt⟩

end JPS

/-! ## Rounding along a line -/

namespace JPS

theorem stdRound_mono (a b : ℚ) (h : a ≤ b) : stdRound a ≤ stdRound b := by
  unfold stdRound
  by_cases ha : 0 ≤ a
  · have hb : 0 ≤ b := le_trans ha h
    rw [if_pos ha, if_pos hb]
    exact Int.floor_le_floor (by linarith)
  · rw [if_neg ha]
    by_cases hb : 0 ≤ b
    · rw [if_pos hb]
      have h1 : ⌈a - 1 / 2⌉ ≤ 0 := by
        rw [Int.ceil_le]
        push_cast
        linarith [not_le.1 ha]
      have h2 : 0 ≤ ⌊b + 1 / 2⌋ := by
        rw [Int.le_floor]
        push_cast
        linarith
      omega
    · rw [if_neg hb]
      exact Int.ceil_le_ceil (by linarith)

theorem stdRound_bounds (q : ℚ) : (stdRound q : ℚ) ≤ q + 1 / 2 ∧ q - 1 / 2 ≤ (stdRound q : ℚ) := by
  unfold stdRound
  split
  · constructor
    · exact Int.floor_le _
    · have := Int.lt_floor_add_one (q + 1 / 2)
      linarith
  · constructor
    · have := Int.ceil_lt_add_one (q - 1 / 2)
      linarith
    · exact Int.le_ceil _

/-- Along a line, the rounded coordinate of an axis never comes back to a value it has
left. -/
theorem axis_between (a b o r : ℚ) (hr : 0 < r) (x c y : Int) (hxc : x ≤ c) (hcy : c ≤ y)
    (h : stdRound ((a + b * (x : ℚ) - o) / r - 1 / 2) =
      stdRound ((a + b * (y : ℚ) - o) / r - 1 / 2)) :
    stdRound ((a + b * (c : ℚ) - o) / r - 1 / 2) =
      stdRound ((a + b * (x : ℚ) - o) / r - 1 / 2) := by
  have hxc' : (x : ℚ) ≤ (c : ℚ) := by exact_mod_cast hxc
  have hcy' : (c : ℚ) ≤ (y : ℚ) := by exact_mod_cast hcy
  rcases le_total 0 b with hb | hb
  · have e1 : (a + b * (x : ℚ) - o) / r - 1 / 2 ≤ (a + b * (c : ℚ) - o) / r - 1 / 2 := by
      have := mul_le_mul_of_nonneg_left hxc' hb
      have := div_le_div_of_nonneg_right (show a + b * (x : ℚ) - o ≤ a + b * (c : ℚ) - o by
        linarith) (le_of_lt hr)
      linarith
    have e2 : (a + b * (c : ℚ) - o) / r - 1 / 2 ≤ (a + b * (y : ℚ) - o) / r - 1 / 2 := by
      have := mul_le_mul_of_nonneg_left hcy' hb
      have := div_le_div_of_nonneg_right (show a + b * (c : ℚ) - o ≤ a + b * (y : ℚ) - o by
        linarith) (le_of_lt hr)
      linarith
    have m1 := stdRound_mono _ _ e1
    have m2 := stdRound_mono _ _ e2
    omega
  · have e1 : (a + b * (c : ℚ) - o) / r - 1 / 2 ≤ (a + b * (x : ℚ) - o) / r - 1 / 2 := by
      have := mul_le_mul_of_nonpos_left hxc' hb
      have := div_le_div_of_nonneg_right (show a + b * (c : ℚ) - o ≤ a + b * (x : ℚ) - o by
        linarith) (le_of_lt hr)
      linarith
    have e2 : (a + b * (y : ℚ) - o) / r - 1 / 2 ≤ (a + b * (c : ℚ) - o) / r - 1 / 2 := by
      have := mul_le_mul_of_nonpos_left hcy' hb
      have := div_le_div_of_nonneg_right (show a + b * (y : ℚ) - o ≤ a + b * (c : ℚ) - o by
        linarith) (le_of_lt hr)
      linarith
    have m1 := stdRound_mono _ _ e1
    have m2 := stdRound_mono _ _ e2
    omega

end JPS

namespace JPS

/-- C15, the output of `rayTrace` is distinct and in bounds: on a grid with resolution
greater than 0 and for any two world points (also equal ones, where the list is empty),
`rayTrace` returns a list in which every cell has `isOutside` false and no cell occurs
twice (2-D and 3-D, exact arithmetic). -/
theorem rayTrace_distinct_inside (g2 : OccMapUtil) (p1 p2 : Vecf2) (g3 : VoxelMapUtil)
    (q1 q2 : Vecf3) (h2 : 0 < g2.res_) (h3 : 0 < g3.res_) :
    ((∀ c ∈ g2.rayTrace p1 p2, g2.isOutside c = false) ∧ (g2.rayTrace p1 p2).Nodup) ∧
      ((∀ c ∈ g3.rayTrace q1 q2, g3.isOutside c = false) ∧ (g3.rayTrace q1 q2).Nodup) := by
  refine ⟨⟨?_, ?_⟩, ⟨?_, ?_⟩⟩
  · exact rayLoop_inside _ _ _ _ _ (by simp)
  · refine rayLoop_nodup _ _ ?_ _ _ _ (loopRange_pairwise _ _) List.nodup_nil (by simp) (by simp)
    intro a c b hac hcb h
    simp only [OccMapUtil.rayCell, OccMapUtil.floatToInt, Prod.mk.injEq] at h ⊢
    exact ⟨axis_between _ _ _ _ h2 a c b hac hcb h.1, axis_between _ _ _ _ h2 a c b hac hcb h.2⟩
  · exact rayLoop_inside _ _ _ _ _ (by simp)
  · refine rayLoop_nodup _ _ ?_ _ _ _ (loopRange_pairwise _ _) List.nodup_nil (by simp) (by simp)
    intro a c b hac hcb h
    simp only [VoxelMapUtil.rayCell, VoxelMapUtil.floatToInt, Prod.mk.injEq] at h ⊢
    exact ⟨axis_between _ _ _ _ h3 a c b hac hcb h.1,
      axis_between _ _ _ _ h3 a c b hac hcb h.2.1,
      axis_between _ _ _ _ h3 a c b hac hcb h.2.2⟩

/-- Witness of C15 on the 10 by 10 grid, along a diagonal, and on the 4 by 4 by 4 grid. -/
theorem rayTrace_distinct_inside_witness :
    ((∀ c ∈ (OccMapUtil.initMap (10, 10) (0, 0) 1 0).rayTrace (1 / 2, 1 / 2) (19 / 2, 7),
          (OccMapUtil.initMap (10, 10) (0, 0) 1 0).isOutside c = false) ∧
        ((OccMapUtil.initMap (10, 10) (0, 0) 1 0).rayTrace (1 / 2, 1 / 2) (19 / 2, 7)).Nodup) ∧
      ((∀ c ∈ (VoxelMapUtil.initMap (4, 4, 4) (0, 0, 0) 1 0).rayTrace (1 / 2, 1 / 2, 1 / 2)
            (7 / 2, 3, 1),
          (VoxelMapUtil.initMap (4, 4, 4) (0, 0, 0) 1 0).isOutside c = false) ∧
        ((VoxelMapUtil.initMap (4, 4, 4) (0, 0, 0) 1 0).rayTrace (1 / 2, 1 / 2, 1 / 2)
          (7 / 2, 3, 1)).Nodup) :=
  rayTrace_distinct_inside (OccMapUtil.initMap (10, 10) (0, 0) 1 0) (1 / 2, 1 / 2) (19 / 2, 7)
    (VoxelMapUtil.initMap (4, 4, 4) (0, 0, 0) 1 0) (1 / 2, 1 / 2, 1 / 2) (7 / 2, 3, 1)
    (by decide!) (by decide!)

end JPS

/-! ## Consecutive cells of a ray -/

namespace JPS

end JPS

namespace JPS

end JPS
